import Mathlib

/-!
Verification of the observation pipeline and binary-resolution layer of the
everything-claude-code repository, as a shallow embedding in Lean 4.

Embedded sources:
- scripts/lib/observer-utils.js  (counters, rotation, archival, sanitizing)
- skills/continuous-learning-v2/hooks/observe.js  (the observation recorder)
- scripts/hooks/analyze-observations.js  (the analysis trigger)
- scripts/lib/binary-resolver.js  (findOrInstall and its lookups)

JavaScript dynamic values are modelled by an inductive JsValue type (JSON
numbers are restricted to integers, which is ample for every property proved
here).  The filesystem is modelled as an association list from paths to file
contents plus a list of created directories; wall-clock timestamps and results
of external processes (which/npm/claude lookups) are passed in explicitly.
-/

namespace ECC

/-! ## JavaScript value model -/

/-- A JSON / JavaScript value as it appears in parsed hook payloads.
Numbers are modelled as integers. -/
inductive JsValue where
  | str (s : String)
  | num (n : Int)
  | bool (b : Bool)
  | null
  | obj (fields : List (String × JsValue))
  | arr (elems : List JsValue)

/-- Emptiness test on the character list (s.length === 0). -/
def strIsEmpty (s : String) : Bool :=
  s.toList.isEmpty

/-- JavaScript truthiness: the empty string, 0, false and null are falsy;
objects and arrays are always truthy. -/
def jsTruthy : JsValue → Bool
  | .str s => !(strIsEmpty s)
  | .num n => n != 0
  | .bool b => b
  | .null => false
  | .obj _ => true
  | .arr _ => true

/-- Property access v.k on a JavaScript value: a field lookup on objects,
undefined (none) on every other value (matching how observe.js reads
hookData.hook_type and friends; index access on strings is not needed). -/
def getField : JsValue → String → Option JsValue
  | .obj fields, k => (fields.find? (fun f => f.1 == k)).map (·.2)
  | _, _ => none

/-- Number of keys Object.keys(v).length sees: the fields of an object, the
elements of an array, the characters of a string, 0 otherwise. -/
def jsKeysLen : JsValue → Nat
  | .obj fields => fields.length
  | .arr elems => elems.length
  | .str s => s.length
  | _ => 0

/-- Semantics of the expression a.k or dflt, as used for
hookData.hook_type or unknown: the field when present and truthy,
otherwise the default. -/
def jsFieldOr (v : JsValue) (k : String) (dflt : JsValue) : JsValue :=
  match getField v k with
  | some w => if jsTruthy w then w else dflt
  | none => dflt

/-- Semantics of the two-step fallback a.k1 or a.k2 or dflt used for
tool_name / tool and tool_input / input in observe.js. -/
def jsFieldOr2 (v : JsValue) (k1 k2 : String) (dflt : JsValue) : JsValue :=
  match getField v k1 with
  | some w => if jsTruthy w then w else jsFieldOr v k2 dflt
  | none => jsFieldOr v k2 dflt

/-! ## String helpers mirroring the JavaScript primitives used by the code -/

/-- Truncation s.slice(0, n). -/
def strTake (s : String) (n : Nat) : String :=
  String.mk (s.toList.take n)

/-- Infix search on character lists, used for String.prototype.includes. -/
def charsInclude (sub : List Char) : List Char → Bool
  | [] => sub.isEmpty
  | c :: t => sub.isPrefixOf (c :: t) || charsInclude sub t

/-- Substring test s.includes(sub). -/
def strIncludes (s sub : String) : Bool :=
  charsInclude sub.toList s.toList

/-- JavaScript whitespace for trim / parseInt purposes. -/
def jsIsWs (c : Char) : Bool :=
  c = ' ' || c = '\t' || c = '\n' || c = '\r' || c = '\x0b' || c = '\x0c'

/-- Semantics of String.prototype.trim. -/
def jsTrim (s : String) : String :=
  String.mk (((s.toList.dropWhile jsIsWs).reverse.dropWhile jsIsWs).reverse)

/-- Split on the newline character, as s.split of a newline separator:
empty segments are kept. -/
def splitLinesAux : List Char → List Char → List String
  | [], acc => [String.mk acc.reverse]
  | c :: t, acc =>
      if c = '\n' then String.mk acc.reverse :: splitLinesAux t []
      else splitLinesAux t (c :: acc)

/-- All newline-separated segments of a string. -/
def splitLines (s : String) : List String :=
  splitLinesAux s.toList []

/-- The first line of a string: the segment before the first newline. -/
def firstLine (s : String) : String :=
  String.mk (s.toList.takeWhile (fun c => c != '\n'))

/-- Semantics of parseInt(s, 10): skip leading whitespace, read an optional
sign and then the longest run of decimal digits; NaN (none) when no digit
follows. -/
def jsParseInt10 (s : String) : Option Int :=
  let cs := s.toList.dropWhile jsIsWs
  let signAndRest : Int × List Char :=
    match cs with
    | '-' :: t => (-1, t)
    | '+' :: t => (1, t)
    | t => (1, t)
  let digits := signAndRest.2.takeWhile (·.isDigit)
  if digits.isEmpty then none
  else some (signAndRest.1 *
    (digits.foldl (fun a c => a * 10 + (c.toNat - 48)) (0 : Nat) : Int))

/-- Rendering String(count) where count may be NaN (none). -/
def jsIntToString : Option Int → String
  | some n => toString n
  | none => "NaN"

/-- A lowercase hexadecimal digit. -/
def hexDigit : Nat → Char
  | 0 => '0' | 1 => '1' | 2 => '2' | 3 => '3' | 4 => '4'
  | 5 => '5' | 6 => '6' | 7 => '7' | 8 => '8' | 9 => '9'
  | 10 => 'a' | 11 => 'b' | 12 => 'c' | 13 => 'd' | 14 => 'e' | _ => 'f'

/-- Decimal digits of a natural number, most significant first; the first
argument is fuel bounding the recursion depth. -/
def natDecimalAux : Nat → Nat → List Char
  | 0, _ => []
  | fuel + 1, n =>
      if n < 10 then [hexDigit n]
      else natDecimalAux fuel (n / 10) ++ [hexDigit (n % 10)]

/-- Decimal rendering of a natural number. -/
def natDecimal (n : Nat) : List Char :=
  natDecimalAux (n + 1) n

/-- Decimal rendering of an integer, as JavaScript prints integral numbers. -/
def intRepr (n : Int) : String :=
  if n < 0 then "-" ++ String.mk (natDecimal n.natAbs)
  else String.mk (natDecimal n.natAbs)

/-- Escape of one character inside a JSON string literal, as produced by
JSON.stringify. -/
def jsonEscapeChar (c : Char) : List Char :=
  if c = '"' then ['\\', '"']
  else if c = '\\' then ['\\', '\\']
  else if c = '\n' then ['\\', 'n']
  else if c = '\t' then ['\\', 't']
  else if c = '\r' then ['\\', 'r']
  else if c = '\x08' then ['\\', 'b']
  else if c = '\x0c' then ['\\', 'f']
  else if c.toNat < 32 then
    ['\\', 'u', '0', '0', (hexDigit (c.toNat / 16)), (hexDigit (c.toNat % 16))]
  else [c]

/-- Escape of the body of a JSON string literal. -/
def jsonEscape (s : String) : String :=
  String.mk (s.toList.foldr (fun c acc => jsonEscapeChar c ++ acc) [])

mutual

/-- Semantics of JSON.stringify on our value model. -/
def stringify : JsValue → String
  | .str s => "\"" ++ jsonEscape s ++ "\""
  | .num n => intRepr n
  | .bool b => if b then "true" else "false"
  | .null => "null"
  | .obj fields => "\x7b" ++ stringifyFields fields ++ "\x7d"
  | .arr elems => "[" ++ stringifyElems elems ++ "]"

/-- Comma-separated serialization of object fields. -/
def stringifyFields : List (String × JsValue) → String
  | [] => ""
  | [(k, v)] => "\"" ++ jsonEscape k ++ "\":" ++ stringify v
  | (k, v) :: rest =>
      "\"" ++ jsonEscape k ++ "\":" ++ stringify v ++ "," ++ stringifyFields rest

/-- Comma-separated serialization of array elements. -/
def stringifyElems : List JsValue → String
  | [] => ""
  | [v] => stringify v
  | v :: rest => stringify v ++ "," ++ stringifyElems rest

end

/-- Semantics of String(v) for the values that can reach that conversion in
observe.js (primitives; arrays join their elements with commas). -/
def jsToString : JsValue → String
  | .str s => s
  | .num n => intRepr n
  | .bool b => if b then "true" else "false"
  | .null => "null"
  | .obj _ => "[object Object]"
  | .arr elems => String.intercalate "," (elems.map fun e =>
      match e with
      | .null => ""
      | .str s => s
      | .num n => intRepr n
      | .bool b => if b then "true" else "false"
      | _ => "")

/-! ## Filesystem model -/

/-- A filesystem: an association list from absolute path to file content,
plus the list of directories that have been created.  The first binding of a
path in files is its current content. -/
structure FS where
  files : List (String × String)
  dirs : List String
  deriving DecidableEq, Repr

/-- Content of a file, none when the path does not exist. -/
def FS.read (fs : FS) (p : String) : Option String :=
  (fs.files.find? (fun e => e.1 == p)).map (·.2)

/-- Existence test for a file. -/
def FS.fileExists (fs : FS) (p : String) : Bool :=
  (fs.read p).isSome

/-- Existence test for a directory. -/
def FS.dirExists (fs : FS) (d : String) : Bool :=
  fs.dirs.contains d

/-- Overwriting write (fs.writeFileSync): replaces any previous binding. -/
def FS.write (fs : FS) (p c : String) : FS :=
  { fs with files := (p, c) :: fs.files.filter (fun e => !(e.1 == p)) }

/-- Removal (fs.unlinkSync without the missing-file error). -/
def FS.remove (fs : FS) (p : String) : FS :=
  { fs with files := fs.files.filter (fun e => !(e.1 == p)) }

/-- Directory creation (ensureDir / fs.mkdirSync recursive): records the
directory; creating an already existing directory is harmless. -/
def FS.mkDir (fs : FS) (d : String) : FS :=
  { fs with dirs := d :: fs.dirs }

/-- Append (appendFile): concatenates to the current content, creating the
file when absent.  Modelled from the spec: appendFile lives in
scripts/lib/utils.js, which is not among the provided sources; its behavior
(append, creating on first use) is fixed by the spec and the utils tests. -/
def FS.append (fs : FS) (p c : String) : FS :=
  fs.write p ((fs.read p).getD "" ++ c)

/-- Rename (fs.renameSync) of an existing file; the caller guards
existence, a rename of a missing path is modelled by the callers as the
thrown exception it raises in JavaScript. -/
def FS.rename (fs : FS) (src dst : String) : FS :=
  match fs.read src with
  | some c => (fs.remove src).write dst c
  | none => fs

/-! ## Path helpers (path.dirname / path.join on the paths this code builds) -/

/-- Semantics of path.dirname: the part before the last separator, with the
Node special cases for a separator-free path and a root-anchored name. -/
def pathDirname (p : String) : String :=
  match p.toList.reverse.dropWhile (fun c => c != '/') with
  | [] => "."
  | _ :: t => if t.isEmpty then "/" else String.mk t.reverse

/-- Semantics of path.join for the two-component joins this code performs
(no trailing separators or duplicate separators appear in them). -/
def pathJoin (d n : String) : String :=
  if d = "." then n else if d = "/" then "/" ++ n else d ++ "/" ++ n

/-! ## observer-utils.js -/

/-- Characters that survive sanitizing: the class [a-zA-Z0-9_-]. -/
def isSafeIdChar (c : Char) : Bool :=
  c.isAlphanum || c == '_' || c == '-'

/-- Embedding of sanitizeSessionId: every character outside [a-zA-Z0-9_-]
becomes an underscore, then the result is cut to 64 characters.  The String()
coercion applied to non-string arguments is performed by callers of this
embedding via jsToString. -/
def sanitizeSessionId (sessionId : String) : String :=
  String.mk
    ((sessionId.toList.map (fun c => if isSafeIdChar c then c else '_')).take 64)

/-- Path of the per-session counter file under the temp directory. -/
def counterFilePath (tempDir sessionId : String) : String :=
  pathJoin tempDir ("claude-obs-count-" ++ sanitizeSessionId sessionId)

/-- Embedding of incrementCounter: reads the counter file (a failed read —
the file being absent — leaves the initial value 1), otherwise parses the
trimmed content with parseInt and adds one (none models NaN), then writes
String(count) back and returns count. -/
def incrementCounter (fs : FS) (tempDir sessionId : String) : FS × Option Int :=
  let counterFile := counterFilePath tempDir sessionId
  let count : Option Int :=
    match fs.read counterFile with
    | none => some 1
    | some existing => (jsParseInt10 (jsTrim existing)).map (· + 1)
  ((fs.write counterFile (jsIntToString count)), count)

/-- Embedding of resetCounter: unlinks the counter file; a missing file is
not an error. -/
def resetCounter (fs : FS) (tempDir sessionId : String) : FS :=
  fs.remove (counterFilePath tempDir sessionId)

/-- Embedding of getCounter: parseInt of the trimmed file content (none
models NaN), or 0 when the read fails. -/
def getCounter (fs : FS) (tempDir sessionId : String) : Option Int :=
  match fs.read (counterFilePath tempDir sessionId) with
  | none => some 0
  | some s => jsParseInt10 (jsTrim s)

/-- Embedding of getFileSizeBytes: the byte size of the content, 0 when the
file does not exist. -/
def getFileSizeBytes (fs : FS) (p : String) : Nat :=
  match fs.read p with
  | none => 0
  | some c => c.utf8ByteSize

/-- Timestamp mangling shared by rotation and archival:
toISOString().replace(/[:.]/g, '-').slice(0, 19). -/
def tsSanitize (now : String) : String :=
  strTake (String.mk (now.toList.map (fun c => if c == ':' || c == '.' then '-' else c))) 19

/-- Archive directory used by both rotation and archival: a subdirectory of
fixed name observations.archive beside the given file. -/
def archiveDirOf (file : String) : String :=
  pathJoin (pathDirname file) "observations.archive"

/-- Embedding of rotateObservationsIfNeeded.  Returns ok (fs, didRotate); the
error case models the exception renameSync raises when the size check passes
for a missing file (possible only for maxMB below or equal 0), carrying the
state at the throw. -/
def rotateObservationsIfNeeded (fs : FS) (file : String) (maxMB : ℚ)
    (now : String) : Except FS (FS × Bool) :=
  let sizeBytes := getFileSizeBytes fs file
  let sizeMB : ℚ := (sizeBytes : ℚ) / (1024 * 1024)
  if sizeMB < maxMB then .ok (fs, false)
  else
    let archiveDir := archiveDirOf file
    let fs1 := fs.mkDir archiveDir
    let archiveName := "observations-" ++ tsSanitize now ++ ".jsonl"
    if fs1.fileExists file then
      .ok (fs1.rename file (archiveDir ++ "/" ++ archiveName), true)
    else
      .error fs1

/-- Embedding of appendObservation: appends the JSON serialization plus a
newline. -/
def appendObservation (fs : FS) (file : String) (obj : JsValue) : FS :=
  fs.append file (stringify obj ++ "\n")

/-- Embedding of countObservations: the number of lines of the file with
nonblank trimmed content; a missing or empty file counts 0. -/
def countObservations (fs : FS) (file : String) : Nat :=
  match fs.read file with
  | none => 0
  | some content =>
      if strIsEmpty content then 0
      else ((splitLines content).filter (fun line => !(jsTrim line).isEmpty)).length

/-- Embedding of archiveObservations: no-op when the file does not exist,
otherwise renames it into the observations.archive subdirectory under a
processed- prefixed dated name. -/
def archiveObservations (fs : FS) (file : String) (now : String) : FS :=
  if !(fs.fileExists file) then fs
  else
    let archiveDir := archiveDirOf file
    let fs1 := fs.mkDir archiveDir
    let archiveName := "processed-" ++ tsSanitize now ++ ".jsonl"
    fs1.rename file (archiveDir ++ "/" ++ archiveName)

/-! ## Configuration model

Only the recognized fields the embedded code reads are modelled; the numeric
fields carry rationals. -/

/-- Section observer of config.json. -/
structure ObserverSection where
  min_observations_to_analyze : Option ℚ

/-- Section observation of config.json. -/
structure ObservationSection where
  store_path : Option String
  max_file_size_mb : Option ℚ

/-- The parsed configuration (loadConfig result when not null). -/
structure Config where
  observer : Option ObserverSection
  observation : Option ObservationSection

/-- Falsy-or fallback a or dflt on an optional number (0 is falsy). -/
def jsNumOr (v : Option ℚ) (dflt : ℚ) : ℚ :=
  match v with
  | some x => if x = 0 then dflt else x
  | none => dflt

/-- Falsy-or fallback a or dflt on an optional string (the empty string is
falsy). -/
def jsStrOr (v : Option String) (dflt : String) : String :=
  match v with
  | some s => if strIsEmpty s then dflt else s
  | none => dflt

/-- The analysis threshold (config and config.observer and
config.observer.min_observations_to_analyze) or 20. -/
def minObservationsOf (config : Option Config) : ℚ :=
  jsNumOr ((config.bind (·.observer)).bind (·.min_observations_to_analyze)) 20

/-- The rotation threshold (config and config.observation and
config.observation.max_file_size_mb) or 10. -/
def maxFileSizeOf (config : Option Config) : ℚ :=
  jsNumOr ((config.bind (·.observation)).bind (·.max_file_size_mb)) 10

/-- The observations file (config and config.observation and
config.observation.store_path) or the default location. -/
def storePathOf (config : Option Config) (dflt : String) : String :=
  jsStrOr ((config.bind (·.observation)).bind (·.store_path)) dflt

/-! ## observe.js (the observation recorder) -/

/-- Ambient inputs of one observe.js invocation: the loadConfig result, the
homunculus directory, the temp directory, the CLAUDE_SESSION_ID environment
variable and the wall-clock ISO timestamp. -/
structure ObserveEnv where
  config : Option Config
  homunculusDir : String
  tempDir : String
  envSessionId : Option String
  now : String

/-- Truncated serialization of a tool input or output: JSON.stringify for
values of typeof object (objects, arrays and null), String() otherwise, cut
to 5000 characters. -/
def serializeCapped (v : JsValue) : String :=
  match v with
  | .obj _ => strTake (stringify v) 5000
  | .arr _ => strTake (stringify v) 5000
  | .null => strTake (stringify v) 5000
  | _ => strTake (jsToString v) 5000

/-- The observation object literal built by observe.js: timestamp, event,
tool and session always, input and output only when the captured string is
truthy (non-null and nonempty). -/
def mkObservation (now event : String) (toolNameVal sessionVal : JsValue)
    (inputStr outputStr : Option String) : List (String × JsValue) :=
  [("timestamp", .str now), ("event", .str event),
   ("tool", toolNameVal), ("session", sessionVal)]
  ++ (match inputStr with
      | some s => if strIsEmpty s then [] else [("input", .str s)]
      | none => [])
  ++ (match outputStr with
      | some s => if strIsEmpty s then [] else [("output", .str s)]
      | none => [])

/-- Semantics of hookType.includes(s) when hookType is an array:
Array.prototype.includes compares by SameValueZero, so the string s is
found exactly when some element is that very string (no other value can
equal a string primitive). -/
def jsArrIncludesStr (elems : List JsValue) (s : String) : Bool :=
  elems.any (fun e => match e with | .str t => t == s | _ => false)

/-- Which hook_type values carry an includes method: strings and arrays do;
a truthy number, boolean or plain object does not, so hookType.includes
throws a TypeError on it. -/
def hookHasIncludes : JsValue → Bool
  | .str _ => true
  | .arr _ => true
  | _ => false

/-- Embedding of the main function of observe.js.  The payload is the
readStdinJson result (none models a rejected read, whose exception the hook
catches; tests additionally fix that unparsable stdin resolves to the empty
object).  Returns the final filesystem and the record that was appended, if
any.  hookType.includes dispatches on the runtime type of hook_type: a
string tests substrings, an array tests string-element membership (and is
never === the string unknown), and a truthy value of any other type has no
includes method, so the call raises a TypeError which the catch-all
swallows before any write happens. -/
def observeMain (env : ObserveEnv) (payload : Option JsValue) (fs0 : FS) :
    FS × Option (List (String × JsValue)) :=
  let fs := fs0.mkDir env.homunculusDir
  if fs.fileExists (env.homunculusDir ++ "/disabled") then (fs, none)
  else match payload with
  | none => (fs, none)
  | some hookData =>
    if !(jsTruthy hookData) || jsKeysLen hookData == 0 then (fs, none)
    else
      let maxFileSizeMB := maxFileSizeOf env.config
      let observationsFile :=
        storePathOf env.config (pathJoin env.homunculusDir "observations.jsonl")
      match jsFieldOr hookData "hook_type" (.str "unknown") with
      | .str hookType =>
        let toolNameVal := jsFieldOr2 hookData "tool_name" "tool" (.str "unknown")
        let toolInput := jsFieldOr2 hookData "tool_input" "input" (.obj [])
        let toolOutput := jsFieldOr2 hookData "tool_output" "output" (.str "")
        let sessionVal := jsFieldOr hookData "session_id"
          (match env.envSessionId with
           | some s => if strIsEmpty s then .str "unknown" else .str s
           | none => .str "unknown")
        let inputStr : Option String :=
          if strIncludes hookType "Pre" || hookType == "unknown" then
            some (serializeCapped toolInput)
          else none
        let outputStr : Option String :=
          if strIncludes hookType "Post" then some (serializeCapped toolOutput)
          else none
        let event := if strIncludes hookType "Pre" then "tool_start" else "tool_complete"
        match rotateObservationsIfNeeded fs observationsFile maxFileSizeMB env.now with
        | .error fsE => (fsE, none)
        | .ok (fs1, _) =>
          let observation := mkObservation env.now event toolNameVal sessionVal inputStr outputStr
          let fs2 := appendObservation fs1 observationsFile (.obj observation)
          let fs3 := (incrementCounter fs2 env.tempDir (jsToString sessionVal)).1
          (fs3, some observation)
      | .arr elems =>
        let toolNameVal := jsFieldOr2 hookData "tool_name" "tool" (.str "unknown")
        let toolInput := jsFieldOr2 hookData "tool_input" "input" (.obj [])
        let toolOutput := jsFieldOr2 hookData "tool_output" "output" (.str "")
        let sessionVal := jsFieldOr hookData "session_id"
          (match env.envSessionId with
           | some s => if strIsEmpty s then .str "unknown" else .str s
           | none => .str "unknown")
        let inputStr : Option String :=
          if jsArrIncludesStr elems "Pre" then some (serializeCapped toolInput)
          else none
        let outputStr : Option String :=
          if jsArrIncludesStr elems "Post" then some (serializeCapped toolOutput)
          else none
        let event := if jsArrIncludesStr elems "Pre" then "tool_start" else "tool_complete"
        match rotateObservationsIfNeeded fs observationsFile maxFileSizeMB env.now with
        | .error fsE => (fsE, none)
        | .ok (fs1, _) =>
          let observation := mkObservation env.now event toolNameVal sessionVal inputStr outputStr
          let fs2 := appendObservation fs1 observationsFile (.obj observation)
          let fs3 := (incrementCounter fs2 env.tempDir (jsToString sessionVal)).1
          (fs3, some observation)
      | _ => (fs, none)

/-! ## analyze-observations.js (the analysis trigger) -/

/-- Ambient inputs of one analyze-observations.js invocation.  claudeOnPath
is the commandExists result for the claude binary; commandExists itself
lives in scripts/lib/utils.js, which is not among the provided sources, and
is modelled from the spec as an external search-path oracle.  analyzerExit
is the exit status of the spawned analyzer. -/
structure AnalyzeEnv where
  config : Option Config
  claudeOnPath : Bool
  analyzerExit : Int
  now : String
  envSessionId : Option String
  tempDir : String
  homunculusDir : String

/-- Embedding of the main function of analyze-observations.js.  The spawned
analyzer only produces log output, so its exit status does not influence the
filesystem transition.  writeFile is modelled from the spec as an
overwriting write (its source lives in the absent scripts/lib/utils.js). -/
def analyzeMain (env : AnalyzeEnv) (fs0 : FS) : FS :=
  let fs := fs0.mkDir env.homunculusDir
  if fs.fileExists (env.homunculusDir ++ "/disabled") then fs
  else
    let minObservations := minObservationsOf env.config
    let observationsFile :=
      storePathOf env.config (pathJoin env.homunculusDir "observations.jsonl")
    let obsCount := countObservations fs observationsFile
    if (obsCount : ℚ) < minObservations then fs
    else if env.claudeOnPath then
      let fs1 := archiveObservations fs observationsFile env.now
      let sessionId := jsStrOr env.envSessionId "default"
      resetCounter fs1 env.tempDir sessionId
    else
      let pendingFile := pathJoin env.homunculusDir ".pending-analysis"
      fs.write pendingFile
        (env.now ++ "\n" ++ String.mk (natDecimal obsCount) ++
          " observations pending analysis\n")

/-! ## binary-resolver.js -/

/-- External facts one findOrInstall call runs against: the platform flag,
the stdout of the which / where.exe lookup (none when the lookup process
fails), the hooks-packages bin directory, the fs.existsSync oracle before
and after the npm install, and the success of mkdir and of npm install. -/
structure ResolverEnv where
  isWindows : Bool
  whichOutput : Option String
  hooksBinDir : String
  existsBefore : String → Bool
  existsAfter : String → Bool
  mkdirOk : Bool
  npmOk : Bool

/-- Embedding of findInPath: first line of the trimmed which / where.exe
output (split on CRLF or LF; the final trim strips a remaining CR), trimmed
again; empty means not found. -/
def findInPath (whichOutput : Option String) : Option String :=
  match whichOutput with
  | none => none
  | some out =>
      let found := jsTrim (firstLine (jsTrim out))
      if strIsEmpty found then none else some found

/-- Embedding of findInHooksPackages: the first existing candidate inside
the bin directory (Windows also tries the .cmd and .ps1 suffixes). -/
def findInHooksPackages (isWindows : Bool) (exists2 : String → Bool)
    (binDir name : String) : Option String :=
  let candidates := if isWindows then [name ++ ".cmd", name ++ ".ps1", name] else [name]
  (candidates.map (fun c => binDir ++ "/" ++ c)).find? exists2

/-- Embedding of installToHooksPackages: true exactly when the directory
creation and the npm install subprocess both succeed (the package name only
parameterizes the external npm call). -/
def installToHooksPackages (env : ResolverEnv) : Bool :=
  env.mkdirOk && env.npmOk

/-- Embedding of findOrInstall: system search path first, then the
hooks-packages directory, then an install attempt followed by a second
hooks-packages lookup; a failed install yields null. -/
def findOrInstall (env : ResolverEnv) (binaryName : String) : Option String :=
  match findInPath env.whichOutput with
  | some p => some p
  | none =>
    match findInHooksPackages env.isWindows env.existsBefore env.hooksBinDir binaryName with
    | some p => some p
    | none =>
      if installToHooksPackages env then
        findInHooksPackages env.isWindows env.existsAfter env.hooksBinDir binaryName
      else none

/-! ## Concrete fixtures used by witnesses and counterexamples -/

/-- A log with 25 nonblank lines. -/
def obsLog25 : String :=
  "x\nx\nx\nx\nx\nx\nx\nx\nx\nx\nx\nx\nx\nx\nx\nx\nx\nx\nx\nx\nx\nx\nx\nx\nx\n"

/-- A filesystem holding a 25-observation log at the default location. -/
def fs25 : FS := ⟨[("/h/observations.jsonl", obsLog25)], []⟩

/-- The same filesystem with a session counter file for session abc. -/
def fs25c : FS :=
  ⟨[("/h/observations.jsonl", obsLog25), ("/t/claude-obs-count-abc", "25")], []⟩

/-- A one-byte log under a non-default basename. -/
def fsFooLog : FS := ⟨[("/d/foo.jsonl", "x")], []⟩

/-- What rotating /d/foo.jsonl actually produces: the fixed-name archive
directory, not a foo.archive one. -/
def fsFooRotated : FS :=
  ⟨[("/d/observations.archive/observations-2026-01-01T00-00-00.jsonl", "x")],
   ["/d/observations.archive"]⟩

/-- A concrete recorder environment: no config, homunculus directory /h,
temp directory /t, CLAUDE_SESSION_ID abc. -/
def envW : ObserveEnv :=
  { config := none, homunculusDir := "/h", tempDir := "/t",
    envSessionId := some "abc", now := "2026-01-01T00:00:00.000Z" }

/-- A PreToolUse payload with a tool name and a tool input. -/
def payloadPre : JsValue :=
  .obj [("hook_type", .str "PreToolUse"), ("tool_name", .str "Bash"),
        ("tool_input", .obj [("command", .str "ls")])]

/-- A payload whose hook_type contains both Pre and Post, with an output. -/
def payloadPrePost : JsValue :=
  .obj [("hook_type", .str "PrePost"), ("tool_name", .str "Bash"),
        ("tool_output", .str "done")]

/-- A payload whose hook_type is an array holding the string Pre: its
Array.prototype.includes classifies the event without throwing. -/
def payloadArr : JsValue :=
  .obj [("hook_type", .arr [.str "Pre", .num 1]), ("tool_name", .str "Bash"),
        ("tool_input", .obj [("command", .str "ls")])]

/-! ### Basic filesystem lemmas -/

theorem find?_filter_ne {l : List (String × String)} {p q : String} (h : q ≠ p) :
    (l.filter (fun e => !(e.1 == p))).find? (fun e => e.1 == q) =
      l.find? (fun e => e.1 == q) := by
  induction l with
  | nil => rfl
  | cons a t ih =>
      by_cases hp : a.1 = p
      · have h1 : (a.1 == p) = true := beq_iff_eq.mpr hp
        have h2 : (a.1 == q) = false := by
          refine beq_eq_false_iff_ne.mpr ?_
          rw [hp]
          exact fun hh => h hh.symm
        rw [List.filter_cons_of_neg (by simp [h1])]
        simp only [List.find?_cons, h2, ih]
      · have h1 : (a.1 == p) = false := beq_eq_false_iff_ne.mpr hp
        rw [List.filter_cons_of_pos (by simp [h1])]
        by_cases hq : a.1 = q
        · have h2 : (a.1 == q) = true := beq_iff_eq.mpr hq
          simp only [List.find?_cons, h2]
        · have h2 : (a.1 == q) = false := beq_eq_false_iff_ne.mpr hq
          simp only [List.find?_cons, h2, ih]

theorem find?_filter_self {l : List (String × String)} {p : String} :
    (l.filter (fun e => !(e.1 == p))).find? (fun e => e.1 == p) = none := by
  induction l with
  | nil => rfl
  | cons a t ih =>
      by_cases hp : a.1 = p
      · have h1 : (a.1 == p) = true := beq_iff_eq.mpr hp
        rw [List.filter_cons_of_neg (by simp [h1])]
        exact ih
      · have h1 : (a.1 == p) = false := beq_eq_false_iff_ne.mpr hp
        rw [List.filter_cons_of_pos (by simp [h1])]
        simp only [List.find?_cons, h1, ih]

@[simp] theorem FS.read_write_self (fs : FS) (p c : String) :
    (fs.write p c).read p = some c := by
  unfold FS.write FS.read
  simp only [List.find?_cons, beq_self_eq_true]
  rfl

theorem FS.read_write_ne (fs : FS) {p q : String} (c : String) (h : q ≠ p) :
    (fs.write p c).read q = fs.read q := by
  unfold FS.write FS.read
  have hpq : (p == q) = false := by
    refine beq_eq_false_iff_ne.mpr ?_
    exact fun hh => h hh.symm
  simp only [List.find?_cons, hpq, find?_filter_ne h]

theorem FS.read_remove_self (fs : FS) (p : String) :
    (fs.remove p).read p = none := by
  unfold FS.remove FS.read
  rw [find?_filter_self]
  rfl

theorem FS.read_remove_ne (fs : FS) {p q : String} (h : q ≠ p) :
    (fs.remove p).read q = fs.read q := by
  unfold FS.remove FS.read
  rw [find?_filter_ne h]

@[simp] theorem FS.read_mkDir (fs : FS) (d p : String) :
    (fs.mkDir d).read p = fs.read p := rfl

@[simp] theorem FS.files_mkDir (fs : FS) (d : String) :
    (fs.mkDir d).files = fs.files := rfl

theorem FS.read_rename_dst (fs : FS) {src dst : String} {c : String}
    (hsrc : fs.read src = some c) :
    (fs.rename src dst).read dst = some c := by
  simp [FS.rename, hsrc]

theorem FS.read_rename_src (fs : FS) {src dst : String} {c : String}
    (hsrc : fs.read src = some c) (hne : src ≠ dst) :
    (fs.rename src dst).read src = none := by
  unfold FS.rename
  rw [hsrc]
  show ((fs.remove src).write dst c).read src = none
  rw [FS.read_write_ne _ _ hne]
  exact FS.read_remove_self fs src

theorem FS.read_rename_other (fs : FS) {src dst q : String}
    (h1 : q ≠ src) (h2 : q ≠ dst) :
    (fs.rename src dst).read q = fs.read q := by
  unfold FS.rename
  cases hs : fs.read src with
  | none => rfl
  | some c =>
      show ((fs.remove src).write dst c).read q = fs.read q
      rw [FS.read_write_ne _ _ h2, FS.read_remove_ne _ h1]

theorem FS.read_remove_of_none (fs : FS) {p q : String}
    (h : fs.read q = none) : (fs.remove p).read q = none := by
  by_cases hq : q = p
  · subst hq; exact fs.read_remove_self q
  · rw [FS.read_remove_ne _ hq]; exact h

/-! ### String and list helpers -/

theorem strToList_append (a b : String) : (a ++ b).toList = a.toList ++ b.toList :=
  String.data_append a b

theorem length_strTake (s : String) (n : Nat) : (strTake s n).length ≤ n :=
  List.length_take_le n s.toList

theorem charsInclude_single_false {c : Char} {l : List Char} (h : c ∉ l) :
    charsInclude [c] l = false := by
  induction l with
  | nil => rfl
  | cons a t ih =>
      have hca : ¬ c = a := fun hh => h (hh ▸ List.mem_cons_self a t)
      have hct : c ∉ t := fun hm => h (List.mem_cons_of_mem a hm)
      simp [charsInclude, List.isPrefixOf, hca, ih hct]

theorem dropWhile_slash_head {l : List Char} {c : Char} {t : List Char}
    (h : l.dropWhile (fun x => x != '/') = c :: t) : c = '/' := by
  induction l with
  | nil => simp [List.dropWhile] at h
  | cons a l ih =>
      rw [List.dropWhile_cons] at h
      by_cases hp : (a != '/') = true
      · rw [if_pos hp] at h
        exact ih h
      · rw [if_neg hp] at h
        have ha : a = c := (List.cons.injEq _ _ _ _ ▸ h).1
        have : a = '/' := by simpa using hp
        rw [← ha]
        exact this

/-! ### Paths never collide with their own archive entries -/

theorem file_toList_split {file : String} {c : Char} {t : List Char}
    (hdw : file.toList.reverse.dropWhile (fun c => c != '/') = c :: t) :
    file.toList =
      t.reverse ++ c :: (file.toList.reverse.takeWhile (fun c => c != '/')).reverse := by
  have h1 : file.toList.reverse.takeWhile (fun c => c != '/') ++ (c :: t) =
      file.toList.reverse := by
    rw [← hdw]
    exact List.takeWhile_append_dropWhile _ _
  have h2 := congrArg List.reverse h1
  rw [List.reverse_append, List.reverse_cons, List.reverse_reverse,
    List.append_assoc] at h2
  exact h2.symm

theorem base_noslash (file : String) :
    '/' ∉ (file.toList.reverse.takeWhile (fun c => c != '/')).reverse := by
  intro hm
  have := List.mem_takeWhile_imp (List.mem_reverse.mp hm)
  simp at this

theorem slash_mem_arch_suffix (rest : String) :
    '/' ∈ ("observations.archive".toList ++ '/' :: rest.toList) :=
  List.mem_append.mpr (Or.inr (List.mem_cons_self _ _))

theorem archConcat_toList (d rest : String) :
    ((d ++ "/" ++ "observations.archive") ++ "/" ++ rest).toList =
      d.toList ++ '/' :: ("observations.archive".toList ++ '/' :: rest.toList) := by
  rw [strToList_append, strToList_append, strToList_append, strToList_append]
  show (d.toList ++ ['/'] ++ _) ++ ['/'] ++ _ = _
  rw [List.append_assoc, List.append_assoc, List.append_assoc]
  rfl

theorem archRoot_toList (rest : String) :
    (("/" ++ "observations.archive") ++ "/" ++ rest).toList =
      '/' :: ("observations.archive".toList ++ '/' :: rest.toList) := by
  rw [strToList_append, strToList_append, strToList_append]
  show ('/' :: _) ++ ['/'] ++ _ = _
  rw [List.cons_append, List.cons_append, List.append_assoc]
  rfl

theorem archRel_toList (rest : String) :
    (("observations.archive" : String) ++ "/" ++ rest).toList =
      "observations.archive".toList ++ '/' :: rest.toList := by
  rw [strToList_append, strToList_append, List.append_assoc]
  rfl

theorem obsArchive_toList_cons :
    ("observations.archive".toList ++ '/' :: "".toList) = [] ++
      'o' :: ("bservations.archive".toList ++ '/' :: "".toList) := rfl

theorem file_ne_archivePath (file rest : String) :
    file ≠ archiveDirOf file ++ "/" ++ rest := by
  intro heq
  have heql : file.toList = (archiveDirOf file ++ "/" ++ rest).toList :=
    congrArg String.toList heq
  cases hdw : file.toList.reverse.dropWhile (fun c => c != '/') with
  | nil =>
      have hdir : pathDirname file = "." := by
        unfold pathDirname
        rw [hdw]
      have harch : archiveDirOf file = "observations.archive" := by
        unfold archiveDirOf
        rw [hdir]
        rfl
      have hnos : '/' ∉ file.toList := by
        intro hm
        have hm2 : '/' ∈ file.toList.reverse := List.mem_reverse.mpr hm
        have := List.dropWhile_eq_nil_iff.mp hdw _ hm2
        simp at this
      apply hnos
      rw [heql, harch, archRel_toList]
      exact slash_mem_arch_suffix rest
  | cons c t =>
      have hc2 : c = '/' := dropWhile_slash_head hdw
      subst hc2
      have hsplit := file_toList_split hdw
      have hbase := base_noslash file
      by_cases ht : t.isEmpty
      · have ht2 : t = [] := List.isEmpty_iff.mp ht
        subst ht2
        have hdir : pathDirname file = "/" := by
          unfold pathDirname
          rw [hdw]
          rfl
        have harch : archiveDirOf file = "/" ++ "observations.archive" := by
          unfold archiveDirOf
          rw [hdir]
          rfl
        rw [harch, archRoot_toList, hsplit] at heql
        have heq2 := List.cons.injEq _ _ _ _ ▸ heql
        exact hbase (heq2.2 ▸ slash_mem_arch_suffix rest)
      · have hD : pathDirname file = String.mk t.reverse := by
          unfold pathDirname
          rw [hdw]
          exact if_neg ht
        by_cases hDdot : String.mk t.reverse = "."
        · have htdot : t = ['.'] := by
            have : t.reverse = ['.'] := congrArg String.toList hDdot
            have h3 := congrArg List.reverse this
            rwa [List.reverse_reverse] at h3
          subst htdot
          have harch : archiveDirOf file = "observations.archive" := by
            unfold archiveDirOf
            rw [hD, hDdot]
            rfl
          rw [harch, archRel_toList, hsplit] at heql
          have hAo : ("observations.archive".toList ++ '/' :: rest.toList) =
              'o' :: ("bservations.archive".toList ++ '/' :: rest.toList) := rfl
          rw [hAo] at heql
          have := (List.cons.injEq _ _ _ _ ▸ heql).1
          exact absurd this (by decide)
        · by_cases hDroot : String.mk t.reverse = "/"
          · have htroot : t = ['/'] := by
              have : t.reverse = ['/'] := congrArg String.toList hDroot
              have h3 := congrArg List.reverse this
              rwa [List.reverse_reverse] at h3
            subst htroot
            have harch : archiveDirOf file = "/" ++ "observations.archive" := by
              unfold archiveDirOf
              rw [hD, hDroot]
              rfl
            rw [harch, archRoot_toList, hsplit] at heql
            have heq2 := (List.cons.injEq _ _ _ _ ▸ heql).2
            have hAo : ("observations.archive".toList ++ '/' :: rest.toList) =
                'o' :: ("bservations.archive".toList ++ '/' :: rest.toList) := rfl
            rw [hAo] at heq2
            have := (List.cons.injEq _ _ _ _ ▸ heq2).1
            exact absurd this (by decide)
          · have harch : archiveDirOf file =
                String.mk t.reverse ++ "/" ++ "observations.archive" := by
              unfold archiveDirOf pathJoin
              rw [hD]
              rw [if_neg hDdot, if_neg hDroot]
            rw [harch, archConcat_toList, hsplit] at heql
            have htl : (String.mk t.reverse).toList = t.reverse := rfl
            rw [htl] at heql
            have heq2 := List.append_cancel_left heql
            have heq3 := (List.cons.injEq _ _ _ _ ▸ heq2).2
            exact hbase (heq3 ▸ slash_mem_arch_suffix rest)

/-! ### The serialized record occupies one line -/

theorem hexDigit_ne_newline (n : Nat) : hexDigit n ≠ '\n' := by
  unfold hexDigit
  split <;> decide

theorem natDecimalAux_chars {fuel n : Nat} {c : Char}
    (h : c ∈ natDecimalAux fuel n) : ∃ k, c = hexDigit k := by
  induction fuel generalizing n with
  | zero => simp [natDecimalAux] at h
  | succ fuel ih =>
      unfold natDecimalAux at h
      by_cases hn : n < 10
      · rw [if_pos hn] at h
        simp at h
        exact ⟨n, h⟩
      · rw [if_neg hn] at h
        rcases List.mem_append.mp h with h1 | h2
        · exact ih h1
        · simp at h2
          exact ⟨n % 10, h2⟩

theorem newline_notin_natDecimal (n : Nat) : '\n' ∉ natDecimal n := by
  intro h
  obtain ⟨k, hk⟩ := natDecimalAux_chars h
  exact hexDigit_ne_newline k hk.symm

theorem newline_notin_intRepr (n : Int) : '\n' ∉ (intRepr n).toList := by
  unfold intRepr
  by_cases h : n < 0
  · rw [if_pos h, strToList_append]
    intro hm
    rcases List.mem_append.mp hm with h1 | h2
    · simp at h1
    · exact newline_notin_natDecimal _ h2
  · rw [if_neg h]
    exact newline_notin_natDecimal _

theorem newline_notin_jsonEscapeChar (c : Char) : '\n' ∉ jsonEscapeChar c := by
  unfold jsonEscapeChar
  split_ifs with h1 h2 h3 h4 h5 h6 h7 h8
  · decide
  · decide
  · decide
  · decide
  · decide
  · decide
  · decide
  · intro hm
    rcases List.mem_cons.mp hm with h | hm
    · exact absurd h (by decide)
    rcases List.mem_cons.mp hm with h | hm
    · exact absurd h (by decide)
    rcases List.mem_cons.mp hm with h | hm
    · exact absurd h (by decide)
    rcases List.mem_cons.mp hm with h | hm
    · exact absurd h (by decide)
    rcases List.mem_cons.mp hm with h | hm
    · exact hexDigit_ne_newline _ h.symm
    rcases List.mem_cons.mp hm with h | hm
    · exact hexDigit_ne_newline _ h.symm
    · simp at hm
  · intro hm
    simp at hm
    apply h3
    rw [← hm]

theorem mem_jsonEscapeAux {c : Char} :
    ∀ l : List Char, c ∈ l.foldr (fun c acc => jsonEscapeChar c ++ acc) [] →
      ∃ a ∈ l, c ∈ jsonEscapeChar a
  | [] => by
      intro h
      simp at h
  | a :: t => by
      intro h
      rw [List.foldr_cons] at h
      rcases List.mem_append.mp h with h3 | h3
      · exact ⟨a, List.mem_cons_self _ _, h3⟩
      · obtain ⟨b, hb, hc⟩ := mem_jsonEscapeAux t h3
        exact ⟨b, List.mem_cons_of_mem _ hb, hc⟩

theorem mem_jsonEscape {c : Char} {s : String} (h : c ∈ (jsonEscape s).toList) :
    ∃ a ∈ s.toList, c ∈ jsonEscapeChar a :=
  mem_jsonEscapeAux s.toList h

theorem newline_notin_jsonEscape (s : String) : '\n' ∉ (jsonEscape s).toList := by
  intro hm
  obtain ⟨a, -, hc⟩ := mem_jsonEscape hm
  exact newline_notin_jsonEscapeChar a hc

theorem newline_notin_str_append {a b : String}
    (ha : '\n' ∉ a.toList) (hb : '\n' ∉ b.toList) : '\n' ∉ (a ++ b).toList := by
  rw [strToList_append]
  intro hm
  rcases List.mem_append.mp hm with h | h
  · exact ha h
  · exact hb h

mutual

theorem newline_notin_stringify : ∀ v : JsValue, '\n' ∉ (stringify v).toList
  | .str s => by
      show '\n' ∉ (("\"" ++ jsonEscape s) ++ "\"").toList
      exact newline_notin_str_append
        (newline_notin_str_append (by decide) (newline_notin_jsonEscape s))
        (by decide)
  | .num n => newline_notin_intRepr n
  | .bool b => by cases b <;> decide
  | .null => by decide
  | .obj fields => by
      show '\n' ∉ (("\x7b" ++ stringifyFields fields) ++ "\x7d").toList
      exact newline_notin_str_append
        (newline_notin_str_append (by decide) (newline_notin_stringifyFields fields))
        (by decide)
  | .arr elems => by
      show '\n' ∉ (("[" ++ stringifyElems elems) ++ "]").toList
      exact newline_notin_str_append
        (newline_notin_str_append (by decide) (newline_notin_stringifyElems elems))
        (by decide)

theorem newline_notin_stringifyFields :
    ∀ l : List (String × JsValue), '\n' ∉ (stringifyFields l).toList
  | [] => by decide
  | [(k, v)] => by
      show '\n' ∉ ((("\"" ++ jsonEscape k) ++ "\":") ++ stringify v).toList
      exact newline_notin_str_append
        (newline_notin_str_append
          (newline_notin_str_append (by decide) (newline_notin_jsonEscape k))
          (by decide))
        (newline_notin_stringify v)
  | (k, v) :: (f2 :: rest) => by
      show '\n' ∉
        ((((("\"" ++ jsonEscape k) ++ "\":") ++ stringify v) ++ ",") ++
          stringifyFields (f2 :: rest)).toList
      exact newline_notin_str_append
        (newline_notin_str_append
          (newline_notin_str_append
            (newline_notin_str_append
              (newline_notin_str_append (by decide) (newline_notin_jsonEscape k))
              (by decide))
            (newline_notin_stringify v))
          (by decide))
        (newline_notin_stringifyFields (f2 :: rest))

theorem newline_notin_stringifyElems :
    ∀ l : List JsValue, '\n' ∉ (stringifyElems l).toList
  | [] => by decide
  | [v] => by
      show '\n' ∉ (stringify v).toList
      exact newline_notin_stringify v
  | v :: (w :: rest) => by
      show '\n' ∉ ((stringify v ++ ",") ++ stringifyElems (w :: rest)).toList
      exact newline_notin_str_append
        (newline_notin_str_append (newline_notin_stringify v) (by decide))
        (newline_notin_stringifyElems (w :: rest))

end

theorem strIncludes_newline_stringify (v : JsValue) :
    strIncludes (stringify v) "\n" = false := by
  unfold strIncludes
  exact charsInclude_single_false (newline_notin_stringify v)

/-! ### Small observation lemmas shared by the hook theorems -/

theorem countObservations_mkDir (fs : FS) (d f : String) :
    countObservations (fs.mkDir d) f = countObservations fs f := rfl

theorem fileExists_mkDir (fs : FS) (d p : String) :
    (fs.mkDir d).fileExists p = fs.fileExists p := rfl

theorem countObservations_pos_exists {fs : FS} {f : String}
    (h : 0 < countObservations fs f) : ∃ c, fs.read f = some c := by
  unfold countObservations at h
  cases hr : fs.read f with
  | none => rw [hr] at h; simp at h
  | some c => exact ⟨c, rfl⟩

theorem sizeBytes_pos_exists {fs : FS} {f : String}
    (h : 0 < getFileSizeBytes fs f) : ∃ c, fs.read f = some c := by
  unfold getFileSizeBytes at h
  cases hr : fs.read f with
  | none => rw [hr] at h; simp at h
  | some c => exact ⟨c, rfl⟩

theorem getCounter_congr {fs1 fs2 : FS} (tempDir sid : String)
    (h : fs1.read (counterFilePath tempDir sid) =
      fs2.read (counterFilePath tempDir sid)) :
    getCounter fs1 tempDir sid = getCounter fs2 tempDir sid := by
  unfold getCounter
  rw [h]

theorem FS.dirs_rename (fs : FS) (src dst : String) :
    (fs.rename src dst).dirs = fs.dirs := by
  unfold FS.rename
  cases fs.read src <;> rfl

theorem FS.dirExists_mkDir_self (fs : FS) (d : String) :
    (fs.mkDir d).dirExists d = true := by
  simp [FS.mkDir, FS.dirExists]

/-! ### Helpers for the recorder theorems -/

theorem rotate_of_lt {fs : FS} {file : String} {maxMB : ℚ} {now : String}
    (h : (getFileSizeBytes fs file : ℚ) / (1024 * 1024) < maxMB) :
    rotateObservationsIfNeeded fs file maxMB now = .ok (fs, false) := by
  simp only [rotateObservationsIfNeeded]
  rw [if_pos h]

theorem natDecimal_ne_nil (n : Nat) : natDecimal n ≠ [] := by
  unfold natDecimal natDecimalAux
  by_cases h : n < 10
  · simp [h]
  · simp [h]

theorem strIsEmpty_append_left {a : String} (b : String)
    (h : strIsEmpty a = false) : strIsEmpty (a ++ b) = false := by
  unfold strIsEmpty at *
  rw [strToList_append]
  cases ha : a.toList with
  | nil => rw [ha] at h; simp at h
  | cons x t => simp

theorem strIsEmpty_strTake {s : String} (h : strIsEmpty s = false) {n : Nat}
    (hn : 0 < n) : strIsEmpty (strTake s n) = false := by
  unfold strIsEmpty strTake at *
  cases hs : s.toList with
  | nil => rw [hs] at h; simp at h
  | cons x t =>
      cases n with
      | zero => exact absurd hn (lt_irrefl 0)
      | succ m => simp

theorem intRepr_ne_empty (n : Int) : strIsEmpty (intRepr n) = false := by
  unfold intRepr
  by_cases h : n < 0
  · rw [if_pos h]
    exact strIsEmpty_append_left _ (by decide)
  · rw [if_neg h]
    show (natDecimal n.natAbs).isEmpty = false
    cases hl : natDecimal n.natAbs with
    | nil => exact absurd hl (natDecimal_ne_nil _)
    | cons x t => simp

theorem stringify_ne_empty (v : JsValue) : strIsEmpty (stringify v) = false := by
  cases v with
  | str s =>
      show strIsEmpty (("\"" ++ jsonEscape s) ++ "\"") = false
      exact strIsEmpty_append_left _ (strIsEmpty_append_left _ (by decide))
  | num n => exact intRepr_ne_empty n
  | bool b => cases b <;> decide
  | null => decide
  | obj fields =>
      show strIsEmpty (("\x7b" ++ stringifyFields fields) ++ "\x7d") = false
      exact strIsEmpty_append_left _ (strIsEmpty_append_left _ (by decide))
  | arr elems =>
      show strIsEmpty (("[" ++ stringifyElems elems) ++ "]") = false
      exact strIsEmpty_append_left _ (strIsEmpty_append_left _ (by decide))

theorem serializeCapped_ne_empty {w : JsValue}
    (h : jsTruthy w = true ∨ w = .obj []) :
    strIsEmpty (serializeCapped w) = false := by
  cases w with
  | str s =>
      have hs : strIsEmpty s = false := by
        rcases h with h | h
        · simpa [jsTruthy] using h
        · exact absurd h (by intro hh; cases hh)
      exact strIsEmpty_strTake hs (by decide)
  | num n => exact strIsEmpty_strTake (intRepr_ne_empty n) (by decide)
  | bool b =>
      rcases h with h | h
      · have : b = true := by simpa [jsTruthy] using h
        subst this
        decide
      · exact absurd h (by intro hh; cases hh)
  | null =>
      rcases h with h | h
      · simp [jsTruthy] at h
      · exact absurd h (by intro hh; cases hh)
  | obj fields => exact strIsEmpty_strTake (stringify_ne_empty _) (by decide)
  | arr elems => exact strIsEmpty_strTake (stringify_ne_empty _) (by decide)

theorem serializeCapped_length (w : JsValue) : (serializeCapped w).length ≤ 5000 := by
  cases w <;> exact length_strTake _ _

theorem jsFieldOr_cases (v : JsValue) (k : String) (d : JsValue) :
    jsFieldOr v k d = d ∨ jsTruthy (jsFieldOr v k d) = true := by
  unfold jsFieldOr
  cases getField v k with
  | none => exact Or.inl rfl
  | some w =>
      dsimp only
      by_cases ht : jsTruthy w = true
      · rw [if_pos ht]
        exact Or.inr ht
      · rw [if_neg ht]
        exact Or.inl rfl

theorem jsFieldOr2_cases (v : JsValue) (k1 k2 : String) (d : JsValue) :
    jsFieldOr2 v k1 k2 d = d ∨ jsTruthy (jsFieldOr2 v k1 k2 d) = true := by
  unfold jsFieldOr2
  cases getField v k1 with
  | none => exact jsFieldOr_cases v k2 d
  | some w =>
      dsimp only
      by_cases ht : jsTruthy w = true
      · rw [if_pos ht]
        exact Or.inr ht
      · rw [if_neg ht]
        exact jsFieldOr_cases v k2 d

theorem mkObservation_timestamp (now ev : String) (tn sv : JsValue)
    (i o : Option String) :
    getField (.obj (mkObservation now ev tn sv i o)) "timestamp" =
      some (.str now) := rfl

theorem mkObservation_event (now ev : String) (tn sv : JsValue)
    (i o : Option String) :
    getField (.obj (mkObservation now ev tn sv i o)) "event" =
      some (.str ev) := rfl

theorem mkObservation_tool (now ev : String) (tn sv : JsValue)
    (i o : Option String) :
    getField (.obj (mkObservation now ev tn sv i o)) "tool" = some tn := rfl

theorem mkObservation_session (now ev : String) (tn sv : JsValue)
    (i o : Option String) :
    getField (.obj (mkObservation now ev tn sv i o)) "session" = some sv := rfl

theorem mkObservation_input (now ev : String) (tn sv : JsValue)
    (i o : Option String) :
    getField (.obj (mkObservation now ev tn sv i o)) "input" =
      (match i with
       | some s => if strIsEmpty s then none else some (JsValue.str s)
       | none => none) := by
  cases i with
  | none =>
      cases o with
      | none => rfl
      | some t =>
          by_cases ht : strIsEmpty t = true
          · simp only [mkObservation, if_pos ht]
            rfl
          · simp only [mkObservation, if_neg ht]
            rfl
  | some s =>
      by_cases hs : strIsEmpty s = true
      · cases o with
        | none =>
            simp only [mkObservation, if_pos hs]
            rfl
        | some t =>
            by_cases ht : strIsEmpty t = true
            · simp only [mkObservation, if_pos hs, if_pos ht]
              rfl
            · simp only [mkObservation, if_pos hs, if_neg ht]
              rfl
      · simp only [mkObservation, if_neg hs]
        rfl

theorem mkObservation_output (now ev : String) (tn sv : JsValue)
    (i o : Option String) :
    getField (.obj (mkObservation now ev tn sv i o)) "output" =
      (match o with
       | some t => if strIsEmpty t then none else some (JsValue.str t)
       | none => none) := by
  cases o with
  | none =>
      cases i with
      | none => rfl
      | some s =>
          by_cases hs : strIsEmpty s = true
          · simp only [mkObservation, if_pos hs]
            rfl
          · simp only [mkObservation, if_neg hs]
            rfl
  | some t =>
      by_cases ht : strIsEmpty t = true
      · cases i with
        | none =>
            simp only [mkObservation, if_pos ht]
            rfl
        | some s =>
            by_cases hs : strIsEmpty s = true
            · simp only [mkObservation, if_pos ht, if_pos hs]
              rfl
            · simp only [mkObservation, if_pos ht, if_neg hs]
              rfl
      · cases i with
        | none =>
            simp only [mkObservation, if_neg ht]
            rfl
        | some s =>
            by_cases hs : strIsEmpty s = true
            · simp only [mkObservation, if_neg ht, if_pos hs]
              rfl
            · simp only [mkObservation, if_neg ht, if_neg hs]
              rfl

theorem read_incrementCounter_ne (fs : FS) (tempDir sid p : String)
    (h : p ≠ counterFilePath tempDir sid) :
    (incrementCounter fs tempDir sid).1.read p = fs.read p := by
  simp only [incrementCounter]
  exact FS.read_write_ne _ _ h

theorem obsFile_ne_counterPath (sid : String) :
    storePathOf none (pathJoin "/h" "observations.jsonl") ≠
      counterFilePath "/t" sid := by
  intro h
  have h2 := congrArg String.toList h
  rw [show storePathOf none (pathJoin "/h" "observations.jsonl") =
        "/h/observations.jsonl" from rfl,
      show counterFilePath "/t" sid =
        "/t/" ++ ("claude-obs-count-" ++ sanitizeSessionId sid) from rfl,
      strToList_append] at h2
  simp at h2

theorem observeMain_valid (env : ObserveEnv) (v : JsValue) (fs fs1 : FS)
    (b : Bool) (ht : String)
    (hdis : (fs.mkDir env.homunculusDir).fileExists
      (env.homunculusDir ++ "/disabled") = false)
    (htr : jsTruthy v = true)
    (hkeys : jsKeysLen v ≠ 0)
    (hht : jsFieldOr v "hook_type" (.str "unknown") = .str ht)
    (hrot : rotateObservationsIfNeeded (fs.mkDir env.homunculusDir)
      (storePathOf env.config (pathJoin env.homunculusDir "observations.jsonl"))
      (maxFileSizeOf env.config) env.now = .ok (fs1, b)) :
    observeMain env (some v) fs =
      ((incrementCounter (appendObservation fs1
          (storePathOf env.config (pathJoin env.homunculusDir "observations.jsonl"))
          (.obj (mkObservation env.now
            (if strIncludes ht "Pre" then "tool_start" else "tool_complete")
            (jsFieldOr2 v "tool_name" "tool" (.str "unknown"))
            (jsFieldOr v "session_id"
              (match env.envSessionId with
               | some s => if strIsEmpty s then .str "unknown" else .str s
               | none => .str "unknown"))
            (if strIncludes ht "Pre" || ht == "unknown" then
              some (serializeCapped (jsFieldOr2 v "tool_input" "input" (.obj [])))
            else none)
            (if strIncludes ht "Post" then
              some (serializeCapped (jsFieldOr2 v "tool_output" "output" (.str "")))
            else none))))
        env.tempDir
        (jsToString (jsFieldOr v "session_id"
          (match env.envSessionId with
           | some s => if strIsEmpty s then .str "unknown" else .str s
           | none => .str "unknown")))).1,
       some (mkObservation env.now
         (if strIncludes ht "Pre" then "tool_start" else "tool_complete")
         (jsFieldOr2 v "tool_name" "tool" (.str "unknown"))
         (jsFieldOr v "session_id"
           (match env.envSessionId with
            | some s => if strIsEmpty s then .str "unknown" else .str s
            | none => .str "unknown"))
         (if strIncludes ht "Pre" || ht == "unknown" then
           some (serializeCapped (jsFieldOr2 v "tool_input" "input" (.obj [])))
         else none)
         (if strIncludes ht "Post" then
           some (serializeCapped (jsFieldOr2 v "tool_output" "output" (.str "")))
         else none))) := by
  have hk2 : (jsKeysLen v == 0) = false := by
    refine beq_eq_false_iff_ne.mpr ?_
    exact hkeys
  simp [observeMain, hdis, htr, hk2, hht, hrot]

theorem observeMain_valid_arr (env : ObserveEnv) (v : JsValue) (fs fs1 : FS)
    (b : Bool) (es : List JsValue)
    (hdis : (fs.mkDir env.homunculusDir).fileExists
      (env.homunculusDir ++ "/disabled") = false)
    (htr : jsTruthy v = true)
    (hkeys : jsKeysLen v ≠ 0)
    (hht : jsFieldOr v "hook_type" (.str "unknown") = .arr es)
    (hrot : rotateObservationsIfNeeded (fs.mkDir env.homunculusDir)
      (storePathOf env.config (pathJoin env.homunculusDir "observations.jsonl"))
      (maxFileSizeOf env.config) env.now = .ok (fs1, b)) :
    observeMain env (some v) fs =
      ((incrementCounter (appendObservation fs1
          (storePathOf env.config (pathJoin env.homunculusDir "observations.jsonl"))
          (.obj (mkObservation env.now
            (if jsArrIncludesStr es "Pre" then "tool_start" else "tool_complete")
            (jsFieldOr2 v "tool_name" "tool" (.str "unknown"))
            (jsFieldOr v "session_id"
              (match env.envSessionId with
               | some s => if strIsEmpty s then .str "unknown" else .str s
               | none => .str "unknown"))
            (if jsArrIncludesStr es "Pre" then
              some (serializeCapped (jsFieldOr2 v "tool_input" "input" (.obj [])))
            else none)
            (if jsArrIncludesStr es "Post" then
              some (serializeCapped (jsFieldOr2 v "tool_output" "output" (.str "")))
            else none))))
        env.tempDir
        (jsToString (jsFieldOr v "session_id"
          (match env.envSessionId with
           | some s => if strIsEmpty s then .str "unknown" else .str s
           | none => .str "unknown")))).1,
       some (mkObservation env.now
         (if jsArrIncludesStr es "Pre" then "tool_start" else "tool_complete")
         (jsFieldOr2 v "tool_name" "tool" (.str "unknown"))
         (jsFieldOr v "session_id"
           (match env.envSessionId with
            | some s => if strIsEmpty s then .str "unknown" else .str s
            | none => .str "unknown"))
         (if jsArrIncludesStr es "Pre" then
           some (serializeCapped (jsFieldOr2 v "tool_input" "input" (.obj [])))
         else none)
         (if jsArrIncludesStr es "Post" then
           some (serializeCapped (jsFieldOr2 v "tool_output" "output" (.str "")))
         else none))) := by
  have hk2 : (jsKeysLen v == 0) = false := by
    refine beq_eq_false_iff_ne.mpr ?_
    exact hkeys
  simp [observeMain, hdis, htr, hk2, hht, hrot]

theorem recordPair_shape (env : ObserveEnv) (fs1 : FS) (pre c1 c2 : Bool)
    (tn sv ti tos : JsValue)
    (hctr : ∀ sid : String,
      storePathOf env.config (pathJoin env.homunculusDir "observations.jsonl") ≠
        counterFilePath env.tempDir sid) :
    ∃ rec : List (String × JsValue),
      ((incrementCounter (appendObservation fs1
          (storePathOf env.config (pathJoin env.homunculusDir "observations.jsonl"))
          (.obj (mkObservation env.now
            (if pre then "tool_start" else "tool_complete") tn sv
            (if c1 then some (serializeCapped ti) else none)
            (if c2 then some (serializeCapped tos) else none))))
        env.tempDir (jsToString sv)).1,
       some (mkObservation env.now
         (if pre then "tool_start" else "tool_complete") tn sv
         (if c1 then some (serializeCapped ti) else none)
         (if c2 then some (serializeCapped tos) else none))).2 = some rec ∧
      ((incrementCounter (appendObservation fs1
          (storePathOf env.config (pathJoin env.homunculusDir "observations.jsonl"))
          (.obj (mkObservation env.now
            (if pre then "tool_start" else "tool_complete") tn sv
            (if c1 then some (serializeCapped ti) else none)
            (if c2 then some (serializeCapped tos) else none))))
        env.tempDir (jsToString sv)).1,
       some (mkObservation env.now
         (if pre then "tool_start" else "tool_complete") tn sv
         (if c1 then some (serializeCapped ti) else none)
         (if c2 then some (serializeCapped tos) else none))).1.read
          (storePathOf env.config (pathJoin env.homunculusDir "observations.jsonl")) =
        some ((fs1.read (storePathOf env.config
            (pathJoin env.homunculusDir "observations.jsonl"))).getD ""
          ++ (stringify (.obj rec) ++ "\n")) ∧
      strIncludes (stringify (.obj rec)) "\n" = false ∧
      getField (.obj rec) "timestamp" = some (.str env.now) ∧
      (getField (.obj rec) "event" = some (.str "tool_start") ∨
        getField (.obj rec) "event" = some (.str "tool_complete")) ∧
      (getField (.obj rec) "tool").isSome = true ∧
      (getField (.obj rec) "session").isSome = true ∧
      (∀ w, getField (.obj rec) "input" = some w →
        ∃ s : String, w = .str s ∧ s.length ≤ 5000) ∧
      (∀ w, getField (.obj rec) "output" = some w →
        ∃ s : String, w = .str s ∧ s.length ≤ 5000) := by
  refine ⟨_, rfl, ?_, strIncludes_newline_stringify _, rfl, ?_, rfl, rfl, ?_, ?_⟩
  · rw [read_incrementCounter_ne _ _ _ _ (hctr _)]
    simp only [appendObservation, FS.append]
    rw [FS.read_write_self]
  · rw [mkObservation_event]
    by_cases hp : pre = true
    · rw [if_pos hp]
      exact Or.inl rfl
    · rw [if_neg hp]
      exact Or.inr rfl
  · intro w hw
    rw [mkObservation_input] at hw
    by_cases hc : c1 = true
    · rw [if_pos hc] at hw
      dsimp only at hw
      by_cases he : strIsEmpty (serializeCapped ti) = true
      · rw [if_pos he] at hw
        exact Option.noConfusion hw
      · rw [if_neg he] at hw
        exact ⟨_, (Option.some.inj hw).symm, serializeCapped_length _⟩
    · rw [if_neg hc] at hw
      dsimp only at hw
      exact Option.noConfusion hw
  · intro w hw
    rw [mkObservation_output] at hw
    by_cases hc : c2 = true
    · rw [if_pos hc] at hw
      dsimp only at hw
      by_cases he : strIsEmpty (serializeCapped tos) = true
      · rw [if_pos he] at hw
        exact Option.noConfusion hw
      · rw [if_neg he] at hw
        exact ⟨_, (Option.some.inj hw).symm, serializeCapped_length _⟩
    · rw [if_neg hc] at hw
      dsimp only at hw
      exact Option.noConfusion hw

/-! ## Claim theorems -/

/-- C9: for every input string, the sanitized session identifier consists
only of ASCII alphanumerics, underscore and hyphen, has length at most 64,
and in particular contains no path separator. -/
theorem c9_sanitizeSessionId_safe (s : String) :
    ((sanitizeSessionId s).toList.all isSafeIdChar) = true ∧
    (sanitizeSessionId s).length ≤ 64 ∧
    '/' ∉ (sanitizeSessionId s).toList ∧ '\\' ∉ (sanitizeSessionId s).toList := by
  have hall : ((sanitizeSessionId s).toList.all isSafeIdChar) = true := by
    rw [List.all_eq_true]
    intro c hc
    have hc2 : c ∈ s.toList.map (fun c => if isSafeIdChar c then c else '_') :=
      List.mem_of_mem_take hc
    obtain ⟨a, -, rfl⟩ := List.mem_map.mp hc2
    by_cases h : isSafeIdChar a
    · rw [if_pos h]
      exact h
    · rw [if_neg h]
      decide
  refine ⟨hall, ?_, ?_, ?_⟩
  · exact List.length_take_le _ _
  · intro hm
    exact absurd ((List.all_eq_true.mp hall) _ hm) (by decide)
  · intro hm
    exact absurd ((List.all_eq_true.mp hall) _ hm) (by decide)

/-- C10: setting observer.min_observations_to_analyze or
observation.max_file_size_mb to 0 behaves exactly as leaving the field
absent, because the falsy-or fallback treats 0 like undefined: the analysis
threshold is the default 20 and the rotation threshold the default 10, and
both entry points compute identical results under the two configurations. -/
theorem c10_zero_config_uses_defaults :
    (∀ obs : Option ObservationSection,
      minObservationsOf (some ⟨some ⟨some 0⟩, obs⟩) = 20 ∧
      minObservationsOf (some ⟨some ⟨none⟩, obs⟩) = 20 ∧
      minObservationsOf (some ⟨none, obs⟩) = 20) ∧
    (∀ (ovr : Option ObserverSection) (sp : Option String),
      maxFileSizeOf (some ⟨ovr, some ⟨sp, some 0⟩⟩) = 10 ∧
      maxFileSizeOf (some ⟨ovr, some ⟨sp, none⟩⟩) = 10) ∧
    (∀ (env : AnalyzeEnv) (obs : Option ObservationSection) (fs : FS),
      analyzeMain { env with config := some ⟨some ⟨some 0⟩, obs⟩ } fs =
        analyzeMain { env with config := some ⟨some ⟨none⟩, obs⟩ } fs) ∧
    (∀ (env : ObserveEnv) (ovr : Option ObserverSection) (sp : Option String)
        (payload : Option JsValue) (fs : FS),
      observeMain { env with config := some ⟨ovr, some ⟨sp, some 0⟩⟩ } payload fs =
        observeMain { env with config := some ⟨ovr, some ⟨sp, none⟩⟩ } payload fs) := by
  refine ⟨fun obs => ⟨rfl, rfl, rfl⟩, fun ovr sp => ⟨rfl, rfl⟩, ?_, ?_⟩
  · intro env obs fs
    unfold analyzeMain
    rfl
  · intro env ovr sp payload fs
    unfold observeMain
    rfl

/-- C1 counterexample: a counter file holding the unparsable content abc is
not treated as 0; the increment returns NaN (not 1) and writes the string
NaN back. -/
theorem c1_counterexample :
    (incrementCounter ⟨[("/tmp/claude-obs-count-s", "abc")], []⟩ "/tmp" "s").2 ≠
      some 1 ∧
    (incrementCounter ⟨[("/tmp/claude-obs-count-s", "abc")], []⟩ "/tmp" "s").1.read
      "/tmp/claude-obs-count-s" = some "NaN" := by
  constructor
  · decide
  · decide

/-- C1 (amended): increment treats a missing counter file as 0 and returns 1;
when the trimmed stored content has an integer prefix parseInt accepts, it
returns that integer plus one and writes it back; but content with no
parsable integer prefix yields NaN: the call returns NaN and stores the
string NaN instead of restarting from 1. -/
theorem c1_incrementCounter_amended (fs : FS) (tempDir sid : String) :
    (fs.read (counterFilePath tempDir sid) = none →
      (incrementCounter fs tempDir sid).2 = some 1 ∧
      getCounter (incrementCounter fs tempDir sid).1 tempDir sid = some 1) ∧
    (∀ s n, fs.read (counterFilePath tempDir sid) = some s →
      jsParseInt10 (jsTrim s) = some n →
      (incrementCounter fs tempDir sid).2 = some (n + 1) ∧
      (incrementCounter fs tempDir sid).1.read (counterFilePath tempDir sid) =
        some (jsIntToString (some (n + 1)))) ∧
    (∀ s, fs.read (counterFilePath tempDir sid) = some s →
      jsParseInt10 (jsTrim s) = none →
      (incrementCounter fs tempDir sid).2 = none ∧
      (incrementCounter fs tempDir sid).1.read (counterFilePath tempDir sid) =
        some "NaN") := by
  refine ⟨?_, ?_, ?_⟩
  · intro h
    simp only [incrementCounter, h]
    refine ⟨by trivial, ?_⟩
    unfold getCounter
    rw [FS.read_write_self]
    rfl
  · intro s n hs hp
    simp only [incrementCounter, hs, hp]
    exact ⟨by trivial, FS.read_write_self _ _ _⟩
  · intro s hs hp
    simp only [incrementCounter, hs, hp]
    exact ⟨by trivial, FS.read_write_self _ _ _⟩

/-- C1 witness: on a concrete filesystem whose counter file stores 41, the
increment returns 42 and writes 42 back. -/
theorem c1_incrementCounter_amended_witness :
    (incrementCounter ⟨[("/t/claude-obs-count-w1", "41")], []⟩ "/t" "w1").2 =
      some 42 ∧
    (incrementCounter ⟨[("/t/claude-obs-count-w1", "41")], []⟩ "/t" "w1").1.read
      "/t/claude-obs-count-w1" = some "42" := by
  have h := (c1_incrementCounter_amended ⟨[("/t/claude-obs-count-w1", "41")], []⟩
    "/t" "w1").2.1 "41" 41 (by decide) (by decide)
  exact ⟨h.1.trans (by decide), h.2.trans (by decide)⟩

/-- C6: the resolver prefers the system search path (even when the binary
also exists in the isolated directory), falls back to the isolated
hooks-packages directory, and otherwise attempts an install: on install
success the result is the post-install lookup in the isolated directory, on
install failure the resolver returns none. -/
theorem c6_findOrInstall_precedence (env : ResolverEnv) (name : String) :
    ((findInPath env.whichOutput).isSome = true →
      findOrInstall env name = findInPath env.whichOutput) ∧
    (findInPath env.whichOutput = none →
      ∀ q, findInHooksPackages env.isWindows env.existsBefore env.hooksBinDir name =
          some q →
        findOrInstall env name = some q) ∧
    (findInPath env.whichOutput = none →
      findInHooksPackages env.isWindows env.existsBefore env.hooksBinDir name = none →
      installToHooksPackages env = true →
      findOrInstall env name =
        findInHooksPackages env.isWindows env.existsAfter env.hooksBinDir name) ∧
    (findInPath env.whichOutput = none →
      findInHooksPackages env.isWindows env.existsBefore env.hooksBinDir name = none →
      installToHooksPackages env = false →
      findOrInstall env name = none) := by
  refine ⟨?_, ?_, ?_, ?_⟩
  · intro h
    unfold findOrInstall
    cases hp : findInPath env.whichOutput with
    | none => rw [hp] at h; simp at h
    | some p => rfl
  · intro hp q hq
    unfold findOrInstall
    rw [hp, hq]
  · intro hp hq hi
    unfold findOrInstall
    rw [hp, hq, hi]
    rfl
  · intro hp hq hi
    unfold findOrInstall
    rw [hp, hq, hi]
    rfl

/-- C8: a payload that failed to parse, or that is falsy, or that parses to
an empty structure, makes record return after (at most) ensuring the state
directory: the log contents are untouched, no record is appended, and every
session counter is unchanged. -/
theorem c8_record_ignores_invalid (env : ObserveEnv) (payload : Option JsValue)
    (fs : FS)
    (h : payload = none ∨ ∃ v, payload = some v ∧
      (jsTruthy v = false ∨ jsKeysLen v = 0)) :
    observeMain env payload fs = (fs.mkDir env.homunculusDir, none) ∧
    (observeMain env payload fs).1.files = fs.files ∧
    ∀ sid, getCounter (observeMain env payload fs).1 env.tempDir sid =
      getCounter fs env.tempDir sid := by
  have key : observeMain env payload fs = (fs.mkDir env.homunculusDir, none) := by
    rcases h with rfl | ⟨v, rfl, hv⟩
    · by_cases hd : (fs.mkDir env.homunculusDir).fileExists
          (env.homunculusDir ++ "/disabled") = true
      · simp [observeMain, hd]
      · simp [observeMain, hd]
    · by_cases hd : (fs.mkDir env.homunculusDir).fileExists
          (env.homunculusDir ++ "/disabled") = true
      · simp [observeMain, hd]
      · rcases hv with hv | hv
        · simp [observeMain, hd, hv]
        · simp [observeMain, hd, hv]
  refine ⟨key, ?_, ?_⟩
  · rw [key]
    rfl
  · intro sid
    refine getCounter_congr _ _ ?_
    rw [key]
    rfl

/-- C8 witness: the empty stdin payload leaves an empty filesystem with only
the state directory ensured and appends nothing. -/
theorem c8_record_ignores_invalid_witness :
    observeMain
      { config := none, homunculusDir := "/h", tempDir := "/t",
        envSessionId := none, now := "2026-01-01T00:00:00.000Z" }
      none ⟨[], []⟩ = (⟨[], ["/h"]⟩, none) :=
  (c8_record_ignores_invalid
    { config := none, homunculusDir := "/h", tempDir := "/t",
      envSessionId := none, now := "2026-01-01T00:00:00.000Z" }
    none ⟨[], []⟩ (Or.inl rfl)).1

/-- C4: with the observation count at or above the threshold and the
analysis command unavailable, the trigger writes the pending marker (its
content holds the timestamp and the pending count), changes no other file —
in particular the log survives with its contents — and leaves the session
counter alone. -/
theorem c4_pending_marker_branch (env : AnalyzeEnv) (fs : FS)
    (hdis : fs.fileExists (env.homunculusDir ++ "/disabled") = false)
    (hmin : 1 ≤ minObservationsOf env.config)
    (hth : minObservationsOf env.config ≤
      (countObservations fs (storePathOf env.config
        (pathJoin env.homunculusDir "observations.jsonl")) : ℚ))
    (hcmd : env.claudeOnPath = false) :
    (analyzeMain env fs).read (pathJoin env.homunculusDir ".pending-analysis") =
      some (env.now ++ "\n" ++
        String.mk (natDecimal (countObservations fs (storePathOf env.config
          (pathJoin env.homunculusDir "observations.jsonl")))) ++
        " observations pending analysis\n") ∧
    (∀ p, p ≠ pathJoin env.homunculusDir ".pending-analysis" →
      (analyzeMain env fs).read p = fs.read p) ∧
    (storePathOf env.config (pathJoin env.homunculusDir "observations.jsonl") ≠
        pathJoin env.homunculusDir ".pending-analysis" →
      (analyzeMain env fs).fileExists (storePathOf env.config
        (pathJoin env.homunculusDir "observations.jsonl")) = true) ∧
    (∀ sid, counterFilePath env.tempDir sid ≠
        pathJoin env.homunculusDir ".pending-analysis" →
      getCounter (analyzeMain env fs) env.tempDir sid =
        getCounter fs env.tempDir sid) := by
  have hd2 : (fs.mkDir env.homunculusDir).fileExists
      (env.homunculusDir ++ "/disabled") = false := hdis
  have hlt : ¬ ((countObservations fs
      (storePathOf env.config (pathJoin env.homunculusDir "observations.jsonl")) : ℚ) <
      minObservationsOf env.config) := not_lt.mpr hth
  have key : analyzeMain env fs =
      (fs.mkDir env.homunculusDir).write
        (pathJoin env.homunculusDir ".pending-analysis")
        (env.now ++ "\n" ++
          String.mk (natDecimal (countObservations fs (storePathOf env.config
            (pathJoin env.homunculusDir "observations.jsonl")))) ++
          " observations pending analysis\n") := by
    simp [analyzeMain, hd2, hlt, hcmd, countObservations_mkDir]
  have hcpos : 0 < countObservations fs (storePathOf env.config
      (pathJoin env.homunculusDir "observations.jsonl")) :=
    Nat.one_le_cast.mp (le_trans hmin hth)
  refine ⟨?_, ?_, ?_, ?_⟩
  · rw [key]
    exact FS.read_write_self _ _ _
  · intro p hp
    rw [key, FS.read_write_ne _ _ hp]
    rfl
  · intro hne
    obtain ⟨c, hc⟩ := countObservations_pos_exists hcpos
    show ((analyzeMain env fs).read _).isSome = true
    rw [key, FS.read_write_ne _ _ hne]
    show (fs.read _).isSome = true
    rw [hc]
    rfl
  · intro sid hne
    refine getCounter_congr _ _ ?_
    rw [key, FS.read_write_ne _ _ hne]
    rfl

/-- C4 witness: a 25-line log against the default threshold 20 with no
claude binary available yields the pending marker, and the log file is left
as it was. -/
theorem c4_pending_marker_branch_witness :
    (analyzeMain
      { config := none, claudeOnPath := false, analyzerExit := 0,
        now := "2026-01-01T00:00:00.000Z", envSessionId := some "abc",
        tempDir := "/t", homunculusDir := "/h" }
      fs25).read "/h/.pending-analysis" =
      some "2026-01-01T00:00:00.000Z\n25 observations pending analysis\n" ∧
    (analyzeMain
      { config := none, claudeOnPath := false, analyzerExit := 0,
        now := "2026-01-01T00:00:00.000Z", envSessionId := some "abc",
        tempDir := "/t", homunculusDir := "/h" }
      fs25).read "/h/observations.jsonl" = some obsLog25 := by
  have h := c4_pending_marker_branch
    { config := none, claudeOnPath := false, analyzerExit := 0,
      now := "2026-01-01T00:00:00.000Z", envSessionId := some "abc",
      tempDir := "/t", homunculusDir := "/h" } fs25
    (by decide) (by decide) (by decide) rfl
  refine ⟨h.1.trans (by decide), ?_⟩
  exact (h.2.1 "/h/observations.jsonl" (by decide)).trans (by decide)

/-- C5: with the observation count at or above the threshold and the
analysis command available, for any analyzer exit status the log is renamed
into the archive directory under a processed- prefixed name keeping its
contents, the original path no longer exists, and the session counter reads
0 afterwards. -/
theorem c5_analyze_archives_and_resets (env : AnalyzeEnv) (fs : FS)
    (hdis : fs.fileExists (env.homunculusDir ++ "/disabled") = false)
    (hmin : 1 ≤ minObservationsOf env.config)
    (hth : minObservationsOf env.config ≤
      (countObservations fs (storePathOf env.config
        (pathJoin env.homunculusDir "observations.jsonl")) : ℚ))
    (hcmd : env.claudeOnPath = true)
    (hcnt : counterFilePath env.tempDir (jsStrOr env.envSessionId "default") ≠
      archiveDirOf (storePathOf env.config
        (pathJoin env.homunculusDir "observations.jsonl")) ++ "/" ++
        ("processed-" ++ tsSanitize env.now ++ ".jsonl")) :
    (analyzeMain env fs).read
        (archiveDirOf (storePathOf env.config
          (pathJoin env.homunculusDir "observations.jsonl")) ++ "/" ++
          ("processed-" ++ tsSanitize env.now ++ ".jsonl")) =
      fs.read (storePathOf env.config
        (pathJoin env.homunculusDir "observations.jsonl")) ∧
    (analyzeMain env fs).fileExists (storePathOf env.config
      (pathJoin env.homunculusDir "observations.jsonl")) = false ∧
    getCounter (analyzeMain env fs) env.tempDir
      (jsStrOr env.envSessionId "default") = some 0 := by
  have hd2 : (fs.mkDir env.homunculusDir).fileExists
      (env.homunculusDir ++ "/disabled") = false := hdis
  have hlt : ¬ ((countObservations (fs.mkDir env.homunculusDir)
      (storePathOf env.config (pathJoin env.homunculusDir "observations.jsonl")) : ℚ) <
      minObservationsOf env.config) := by
    rw [countObservations_mkDir]
    exact not_lt.mpr hth
  have hcpos : 0 < countObservations fs (storePathOf env.config
      (pathJoin env.homunculusDir "observations.jsonl")) :=
    Nat.one_le_cast.mp (le_trans hmin hth)
  obtain ⟨c, hread⟩ := countObservations_pos_exists hcpos
  have hfe : (fs.mkDir env.homunculusDir).fileExists (storePathOf env.config
      (pathJoin env.homunculusDir "observations.jsonl")) = true := by
    show (fs.read _).isSome = true
    rw [hread]
    rfl
  have key : analyzeMain env fs =
      resetCounter
        (((fs.mkDir env.homunculusDir).mkDir (archiveDirOf (storePathOf env.config
            (pathJoin env.homunculusDir "observations.jsonl")))).rename
          (storePathOf env.config (pathJoin env.homunculusDir "observations.jsonl"))
          (archiveDirOf (storePathOf env.config
            (pathJoin env.homunculusDir "observations.jsonl")) ++ "/" ++
            ("processed-" ++ tsSanitize env.now ++ ".jsonl")))
        env.tempDir (jsStrOr env.envSessionId "default") := by
    simp [analyzeMain, archiveObservations, hd2, hlt, hcmd, hfe]
  have hneq := file_ne_archivePath
    (storePathOf env.config (pathJoin env.homunculusDir "observations.jsonl"))
    ("processed-" ++ tsSanitize env.now ++ ".jsonl")
  have hread2 : ((fs.mkDir env.homunculusDir).mkDir
      (archiveDirOf (storePathOf env.config
        (pathJoin env.homunculusDir "observations.jsonl")))).read
      (storePathOf env.config (pathJoin env.homunculusDir "observations.jsonl")) =
      some c := hread
  refine ⟨?_, ?_, ?_⟩
  · rw [key]
    unfold resetCounter
    rw [FS.read_remove_ne _ (Ne.symm hcnt), FS.read_rename_dst _ hread2, hread]
  · rw [key]
    unfold resetCounter FS.fileExists
    rw [FS.read_remove_of_none _ (FS.read_rename_src _ hread2 hneq)]
    rfl
  · rw [key]
    unfold resetCounter getCounter
    rw [FS.read_remove_self]

/-- C5 witness: a 25-line log with the claude CLI available and a nonzero
analyzer exit is archived under the processed- name, the original path is
gone, and the counter reads 0. -/
theorem c5_analyze_archives_and_resets_witness :
    (analyzeMain
      { config := none, claudeOnPath := true, analyzerExit := 3,
        now := "2026-01-01T00:00:00.000Z", envSessionId := some "abc",
        tempDir := "/t", homunculusDir := "/h" }
      fs25c).read "/h/observations.archive/processed-2026-01-01T00-00-00.jsonl" =
      some obsLog25 ∧
    (analyzeMain
      { config := none, claudeOnPath := true, analyzerExit := 3,
        now := "2026-01-01T00:00:00.000Z", envSessionId := some "abc",
        tempDir := "/t", homunculusDir := "/h" }
      fs25c).fileExists "/h/observations.jsonl" = false ∧
    getCounter
      (analyzeMain
        { config := none, claudeOnPath := true, analyzerExit := 3,
          now := "2026-01-01T00:00:00.000Z", envSessionId := some "abc",
          tempDir := "/t", homunculusDir := "/h" }
        fs25c) "/t" "abc" = some 0 := by
  have h := c5_analyze_archives_and_resets
    { config := none, claudeOnPath := true, analyzerExit := 3,
      now := "2026-01-01T00:00:00.000Z", envSessionId := some "abc",
      tempDir := "/t", homunculusDir := "/h" } fs25c
    (by decide) (by decide) (by decide) rfl (by decide)
  exact ⟨h.1.trans (by decide), h.2.1, h.2.2⟩

/-- C3 counterexample: rotating the over-threshold log /d/foo.jsonl returns
true but moves the file into a directory with the fixed name
observations.archive; no foo.archive directory named from the basename
exists afterwards. -/
theorem c3_counterexample :
    rotateObservationsIfNeeded fsFooLog "/d/foo.jsonl" (1 / 1048576)
        "2026-01-01T00:00:00.000Z" = .ok (fsFooRotated, true) ∧
    fsFooRotated.dirExists "/d/foo.archive" = false ∧
    fsFooRotated.read
      "/d/observations.archive/observations-2026-01-01T00-00-00.jsonl" =
      some "x" ∧
    fsFooRotated.read "/d/foo.jsonl" = none := by
  have hcond : ¬ ((getFileSizeBytes fsFooLog "/d/foo.jsonl" : ℚ) / (1024 * 1024) <
      1 / 1048576) := by
    have h1 : getFileSizeBytes fsFooLog "/d/foo.jsonl" = 1 := by decide
    rw [h1]
    norm_num
  refine ⟨?_, by decide, by decide, by decide⟩
  simp only [rotateObservationsIfNeeded]
  rw [if_neg hcond]
  rfl

/-- C3 (amended): below the threshold the file is untouched and rotation
reports false; at or above a positive threshold rotation reports true,
creates the archive directory — which is always named observations.archive,
not after the log file's basename — and renames the log into it under the
dated observations- name, so the original path no longer exists. -/
theorem c3_rotate_amended (fs : FS) (file : String) (maxMB : ℚ) (now : String) :
    ((getFileSizeBytes fs file : ℚ) / (1024 * 1024) < maxMB →
      rotateObservationsIfNeeded fs file maxMB now = .ok (fs, false)) ∧
    (0 < maxMB → maxMB ≤ (getFileSizeBytes fs file : ℚ) / (1024 * 1024) →
      ∃ fs1, rotateObservationsIfNeeded fs file maxMB now = .ok (fs1, true) ∧
        fs1.dirExists (archiveDirOf file) = true ∧
        fs1.read (archiveDirOf file ++ "/" ++
          ("observations-" ++ tsSanitize now ++ ".jsonl")) = fs.read file ∧
        fs1.read file = none) := by
  constructor
  · intro h
    simp only [rotateObservationsIfNeeded]
    rw [if_pos h]
  · intro hpos hge
    have hlt : ¬ ((getFileSizeBytes fs file : ℚ) / (1024 * 1024) < maxMB) :=
      not_lt.mpr hge
    have hszpos : 0 < getFileSizeBytes fs file := by
      rcases Nat.eq_zero_or_pos (getFileSizeBytes fs file) with h0 | h0
      · rw [h0, Nat.cast_zero, zero_div] at hge
        exact absurd (lt_of_lt_of_le hpos hge) (lt_irrefl 0)
      · exact h0
    obtain ⟨c, hread⟩ := sizeBytes_pos_exists hszpos
    have hread2 : (fs.mkDir (archiveDirOf file)).read file = some c := hread
    have hfe : (fs.mkDir (archiveDirOf file)).fileExists file = true := by
      show ((fs.mkDir (archiveDirOf file)).read file).isSome = true
      rw [hread2]
      rfl
    refine ⟨(fs.mkDir (archiveDirOf file)).rename file
      (archiveDirOf file ++ "/" ++ ("observations-" ++ tsSanitize now ++ ".jsonl")),
      ?_, ?_, ?_, ?_⟩
    · simp only [rotateObservationsIfNeeded]
      rw [if_neg hlt]
      simp [hfe]
    · show (FS.rename _ _ _).dirExists _ = true
      unfold FS.dirExists
      rw [FS.dirs_rename]
      exact FS.dirExists_mkDir_self fs _
    · rw [FS.read_rename_dst _ hread2, hread]
    · exact FS.read_rename_src _ hread2 (file_ne_archivePath file _)

/-- C3 witness: a missing log file against the default 10 MB threshold is
left untouched and rotation reports false. -/
theorem c3_rotate_amended_witness :
    rotateObservationsIfNeeded ⟨[], []⟩ "/h/observations.jsonl" 10
        "2026-01-01T00:00:00.000Z" = .ok (⟨[], []⟩, false) := by
  have h := (c3_rotate_amended ⟨[], []⟩ "/h/observations.jsonl" 10
    "2026-01-01T00:00:00.000Z").1
  exact h (by simp [getFileSizeBytes, FS.read])

/-- C6 witness: with tsc present both on the search path and in the isolated
directory, the search-path result wins. -/
theorem c6_findOrInstall_precedence_witness :
    findOrInstall
      { isWindows := false, whichOutput := some "/usr/bin/tsc\n",
        hooksBinDir := "/home/u/.claude/hooks-packages/node_modules/.bin",
        existsBefore := fun p =>
          p == "/home/u/.claude/hooks-packages/node_modules/.bin/tsc",
        existsAfter := fun _ => false, mkdirOk := true, npmOk := true }
      "tsc" = some "/usr/bin/tsc" := by
  have h := (c6_findOrInstall_precedence
    { isWindows := false, whichOutput := some "/usr/bin/tsc\n",
      hooksBinDir := "/home/u/.claude/hooks-packages/node_modules/.bin",
      existsBefore := fun p =>
        p == "/home/u/.claude/hooks-packages/node_modules/.bin/tsc",
      existsAfter := fun _ => false, mkdirOk := true, npmOk := true }
    "tsc").1 (by decide)
  exact h.trans (by decide)

/-- C7 counterexample: the parsable, non-empty payload whose hook_type is
the number 123 passes every guard, yet record appends nothing: a number has
no includes method, so hookType.includes throws a TypeError that the
catch-all swallows, and the filesystem keeps only the ensured directory
with no observation line written. -/
theorem c7_counterexample :
    jsTruthy (JsValue.obj [("hook_type", JsValue.num 123)]) = true ∧
    jsKeysLen (JsValue.obj [("hook_type", JsValue.num 123)]) ≠ 0 ∧
    observeMain envW (some (.obj [("hook_type", .num 123)])) ⟨[], []⟩ =
      (⟨[], ["/h"]⟩, none) :=
  ⟨rfl, by decide, rfl⟩

/-- C7 (amended): for every parsable, non-empty payload whose hook_type,
after the falsy-or fallback to unknown, carries an includes method — it is
a string, classified by substring tests, or an array, classified by
string-element membership — when the hook is enabled, rotation succeeds,
and the log file is not a session counter file, record appends exactly one
line to the log: the new content is the old content followed by one
newline-free JSON serialization of the observation and a newline, and the
observation has the Observation shape — a timestamp, an event that is
tool_start or tool_complete, tool and session fields, and any input or
output field a string of at most 5000 characters.  A truthy hook_type of
any other type (a number, boolean or plain object) instead makes the
classification throw a TypeError and nothing is appended. -/
theorem c7_record_appends_amended (env : ObserveEnv) (v : JsValue)
    (fs fs1 : FS) (b : Bool)
    (hdis : (fs.mkDir env.homunculusDir).fileExists
      (env.homunculusDir ++ "/disabled") = false)
    (htr : jsTruthy v = true)
    (hkeys : jsKeysLen v ≠ 0)
    (hcls : hookHasIncludes (jsFieldOr v "hook_type" (.str "unknown")) = true)
    (hrot : rotateObservationsIfNeeded (fs.mkDir env.homunculusDir)
      (storePathOf env.config (pathJoin env.homunculusDir "observations.jsonl"))
      (maxFileSizeOf env.config) env.now = .ok (fs1, b))
    (hctr : ∀ sid : String,
      storePathOf env.config (pathJoin env.homunculusDir "observations.jsonl") ≠
        counterFilePath env.tempDir sid) :
    ∃ rec : List (String × JsValue),
      (observeMain env (some v) fs).2 = some rec ∧
      (observeMain env (some v) fs).1.read
          (storePathOf env.config (pathJoin env.homunculusDir "observations.jsonl")) =
        some ((fs1.read (storePathOf env.config
            (pathJoin env.homunculusDir "observations.jsonl"))).getD ""
          ++ (stringify (.obj rec) ++ "\n")) ∧
      strIncludes (stringify (.obj rec)) "\n" = false ∧
      getField (.obj rec) "timestamp" = some (.str env.now) ∧
      (getField (.obj rec) "event" = some (.str "tool_start") ∨
        getField (.obj rec) "event" = some (.str "tool_complete")) ∧
      (getField (.obj rec) "tool").isSome = true ∧
      (getField (.obj rec) "session").isSome = true ∧
      (∀ w, getField (.obj rec) "input" = some w →
        ∃ s : String, w = .str s ∧ s.length ≤ 5000) ∧
      (∀ w, getField (.obj rec) "output" = some w →
        ∃ s : String, w = .str s ∧ s.length ≤ 5000) := by
  cases hv : jsFieldOr v "hook_type" (.str "unknown") with
  | str ht =>
      rw [observeMain_valid env v fs fs1 b ht hdis htr hkeys hv hrot]
      exact recordPair_shape env fs1 _ _ _ _ _ _ _ hctr
  | arr es =>
      rw [observeMain_valid_arr env v fs fs1 b es hdis htr hkeys hv hrot]
      exact recordPair_shape env fs1 _ _ _ _ _ _ _ hctr
  | num n =>
      rw [hv] at hcls
      simp [hookHasIncludes] at hcls
  | bool b2 =>
      rw [hv] at hcls
      simp [hookHasIncludes] at hcls
  | null =>
      rw [hv] at hcls
      simp [hookHasIncludes] at hcls
  | obj flds =>
      rw [hv] at hcls
      simp [hookHasIncludes] at hcls

/-- C7 witness: a concrete payload whose hook_type is the array holding the
string Pre and the number 1 is classified by Array.prototype.includes
without throwing, and on an empty filesystem appends one well-shaped
observation line to the default log. -/
theorem c7_record_appends_amended_witness :
    ∃ rec : List (String × JsValue),
      (observeMain envW (some payloadArr) ⟨[], []⟩).2 = some rec ∧
      (observeMain envW (some payloadArr) ⟨[], []⟩).1.read
          (storePathOf envW.config (pathJoin envW.homunculusDir "observations.jsonl")) =
        some (((FS.mk [] ["/h"]).read (storePathOf envW.config
            (pathJoin envW.homunculusDir "observations.jsonl"))).getD ""
          ++ (stringify (.obj rec) ++ "\n")) ∧
      strIncludes (stringify (.obj rec)) "\n" = false ∧
      getField (.obj rec) "timestamp" = some (.str envW.now) ∧
      (getField (.obj rec) "event" = some (.str "tool_start") ∨
        getField (.obj rec) "event" = some (.str "tool_complete")) ∧
      (getField (.obj rec) "tool").isSome = true ∧
      (getField (.obj rec) "session").isSome = true ∧
      (∀ w, getField (.obj rec) "input" = some w →
        ∃ s : String, w = .str s ∧ s.length ≤ 5000) ∧
      (∀ w, getField (.obj rec) "output" = some w →
        ∃ s : String, w = .str s ∧ s.length ≤ 5000) := by
  have hrot : rotateObservationsIfNeeded (FS.mkDir ⟨[], []⟩ envW.homunculusDir)
      (storePathOf envW.config (pathJoin envW.homunculusDir "observations.jsonl"))
      (maxFileSizeOf envW.config) envW.now = .ok (⟨[], ["/h"]⟩, false) :=
    rotate_of_lt (by simp [getFileSizeBytes, FS.read, storePathOf, jsStrOr,
      pathJoin, maxFileSizeOf, jsNumOr, envW])
  exact c7_record_appends_amended envW payloadArr ⟨[], []⟩ ⟨[], ["/h"]⟩ false
    (by decide) rfl (by decide) rfl hrot
    (fun sid => obsFile_ne_counterPath sid)

/-- C2 counterexample: with hook_type PrePost and a tool output present, the
appended record has event tool_start yet carries both an input and an output
field, contradicting the claim that a tool_start record carries only input
and that no record ever carries both. -/
theorem c2_counterexample :
    (observeMain envW (some payloadPrePost) ⟨[], []⟩).2.map
        (fun rec => (getField (.obj rec) "event",
          (getField (.obj rec) "input").isSome,
          (getField (.obj rec) "output").isSome)) =
      some (some (.str "tool_start"), true, true) := by
  have hrot : rotateObservationsIfNeeded (FS.mkDir ⟨[], []⟩ envW.homunculusDir)
      (storePathOf envW.config (pathJoin envW.homunculusDir "observations.jsonl"))
      (maxFileSizeOf envW.config) envW.now = .ok (⟨[], ["/h"]⟩, false) :=
    rotate_of_lt (by simp [getFileSizeBytes, FS.read, storePathOf, jsStrOr,
      pathJoin, maxFileSizeOf, jsNumOr, envW])
  rw [observeMain_valid envW payloadPrePost ⟨[], []⟩ ⟨[], ["/h"]⟩ false
    "PrePost" (by decide) rfl (by decide) rfl hrot]
  rfl

/-- C2 (amended): the capture rule is keyed to substring tests on hook_type:
the input field is present exactly when hook_type contains Pre or is the
fallback unknown, the output field is present exactly when hook_type
contains Post and the serialized output is nonempty, and the event is
tool_start exactly when hook_type contains Pre; hence a hook_type containing
both substrings yields one record carrying both fields, and a missing
hook_type yields a tool_complete record carrying input. -/
theorem c2_capture_amended (env : ObserveEnv) (v : JsValue)
    (fs fs1 : FS) (b : Bool) (ht : String)
    (hdis : (fs.mkDir env.homunculusDir).fileExists
      (env.homunculusDir ++ "/disabled") = false)
    (htr : jsTruthy v = true)
    (hkeys : jsKeysLen v ≠ 0)
    (hht : jsFieldOr v "hook_type" (.str "unknown") = .str ht)
    (hrot : rotateObservationsIfNeeded (fs.mkDir env.homunculusDir)
      (storePathOf env.config (pathJoin env.homunculusDir "observations.jsonl"))
      (maxFileSizeOf env.config) env.now = .ok (fs1, b)) :
    ∃ rec : List (String × JsValue),
      (observeMain env (some v) fs).2 = some rec ∧
      (getField (.obj rec) "input").isSome =
        (strIncludes ht "Pre" || ht == "unknown") ∧
      (getField (.obj rec) "output").isSome =
        (strIncludes ht "Post" &&
          !(strIsEmpty (serializeCapped
            (jsFieldOr2 v "tool_output" "output" (.str ""))))) ∧
      getField (.obj rec) "event" =
        some (.str (if strIncludes ht "Pre" then "tool_start"
                    else "tool_complete")) := by
  rw [observeMain_valid env v fs fs1 b ht hdis htr hkeys hht hrot]
  have hin : strIsEmpty (serializeCapped
      (jsFieldOr2 v "tool_input" "input" (.obj []))) = false := by
    rcases jsFieldOr2_cases v "tool_input" "input" (.obj []) with hd | h2
    · rw [hd]
      exact serializeCapped_ne_empty (Or.inr rfl)
    · exact serializeCapped_ne_empty (Or.inl h2)
  refine ⟨_, rfl, ?_, ?_, ?_⟩
  · rw [mkObservation_input]
    by_cases hc : (strIncludes ht "Pre" || ht == "unknown") = true
    · rw [if_pos hc, hc]
      dsimp only
      rw [if_neg (by simp [hin])]
      rfl
    · rw [if_neg hc]
      dsimp only
      rw [Bool.not_eq_true] at hc
      rw [hc]
      rfl
  · rw [mkObservation_output]
    by_cases hp : strIncludes ht "Post" = true
    · rw [if_pos hp, hp]
      dsimp only
      by_cases he : strIsEmpty (serializeCapped
          (jsFieldOr2 v "tool_output" "output" (.str ""))) = true
      · rw [if_pos he, he]
        rfl
      · rw [if_neg he]
        rw [Bool.not_eq_true] at he
        rw [he]
        rfl
    · rw [if_neg hp]
      dsimp only
      rw [Bool.not_eq_true] at hp
      rw [hp]
      rfl
  · rw [mkObservation_event]

/-- C2 witness: on the PrePost payload the characterization instantiates to
a record with both fields present and event tool_start. -/
theorem c2_capture_amended_witness :
    ∃ rec : List (String × JsValue),
      (observeMain envW (some payloadPrePost) ⟨[], []⟩).2 = some rec ∧
      (getField (.obj rec) "input").isSome =
        (strIncludes "PrePost" "Pre" || "PrePost" == "unknown") ∧
      (getField (.obj rec) "output").isSome =
        (strIncludes "PrePost" "Post" &&
          !(strIsEmpty (serializeCapped
            (jsFieldOr2 payloadPrePost "tool_output" "output" (.str ""))))) ∧
      getField (.obj rec) "event" =
        some (.str (if strIncludes "PrePost" "Pre" then "tool_start"
                    else "tool_complete")) := by
  have hrot : rotateObservationsIfNeeded (FS.mkDir ⟨[], []⟩ envW.homunculusDir)
      (storePathOf envW.config (pathJoin envW.homunculusDir "observations.jsonl"))
      (maxFileSizeOf envW.config) envW.now = .ok (⟨[], ["/h"]⟩, false) :=
    rotate_of_lt (by simp [getFileSizeBytes, FS.read, storePathOf, jsStrOr,
      pathJoin, maxFileSizeOf, jsNumOr, envW])
  exact c2_capture_amended envW payloadPrePost ⟨[], []⟩ ⟨[], ["/h"]⟩ false
    "PrePost" (by decide) rfl (by decide) rfl hrot

end ECC
